import Mathlib

/-!
Verification of the EDIFACT ORDERS generator (`order.py`) against its
specification.  Strings are modelled as lists of characters, Python
`Decimal` values as exact rationals, and fallible code as `Except`.
-/

/-- Strings of the source program, modelled as lists of characters. -/
abbrev Str := List Char

/-- Converts a Lean string literal to the character-list model. -/
def lstr (s : String) : Str := s.toList

/-- The apostrophe character (EDIFACT segment terminator), code point 39. -/
def apos : Char := Char.ofNat 39

/-- ESCAPE_CHARS from the source: the reserved characters escaped by
`escape_edifact`, in the order the source iterates over them. -/
def ESCAPE_CHARS : List Char := [apos, '+', ':', '*']

/-- CONTROL_CHAR_REGEX membership: ASCII 0x00-0x1F and 0x7F. -/
def isCtrl (c : Char) : Bool := c.toNat < 32 || c.toNat == 127

/-- Removal of control characters (`CONTROL_CHAR_REGEX.sub` on a string). -/
def stripCtrl (s : Str) : Str := s.filter (fun c => !(isCtrl c))

/-- Python `str.replace` for a single-character pattern: every occurrence of
`c` is replaced by `r`. -/
def replaceChar (c : Char) (r : Str) : Str → Str
  | [] => []
  | x :: xs => if x = c then r ++ replaceChar c r xs else x :: replaceChar c r xs

/-- Body of `SegmentGenerator.escape_edifact` on an actual string: strip
control characters, double the release character, then prefix each
reserved character with the release character. -/
def escapeStr (s : Str) : Str :=
  ESCAPE_CHARS.foldl (fun acc c => replaceChar c ['?', c] acc)
    (replaceChar '?' ['?', '?'] (stripCtrl s))

/-- SegmentGenerator.escape_edifact: `None` maps to the empty string. -/
def escape_edifact : Option Str → Str
  | none => []
  | some s => escapeStr s

/-- Per-character expansion of a string (helper for reasoning about
single-character `replace`). -/
def expandEach (f : Char → Str) : Str → Str
  | [] => []
  | c :: rest => f c ++ expandEach f rest

/-- Per-character form of the complete escaping transformation. -/
def escChar (c : Char) : Str :=
  if c = '?' then ['?', '?'] else if c ∈ ESCAPE_CHARS then ['?', c] else [c]

/-- Scanner deciding whether a string holds a reserved character that is
not preceded by a release character. -/
def hasUnescapedReserved : Str → Bool
  | [] => false
  | [c] => if c = '?' then false else ESCAPE_CHARS.contains c
  | c :: d :: rest =>
    if c = '?' then hasUnescapedReserved rest
    else ESCAPE_CHARS.contains c || hasUnescapedReserved (d :: rest)

/-- Inverse of the escaping: a release character makes the following
character literal; other characters pass through. -/
def deescape : Str → Str
  | [] => []
  | [c] => if c = '?' then [] else [c]
  | c :: d :: rest =>
    if c = '?' then d :: deescape rest else c :: deescape (d :: rest)

theorem expandEach_append (f : Char → Str) (a b : Str) :
    expandEach f (a ++ b) = expandEach f a ++ expandEach f b := by
  induction a with
  | nil => rfl
  | cons c rest ih => simp [expandEach, ih]

theorem replaceChar_eq_expandEach (c : Char) (r : Str) (s : Str) :
    replaceChar c r s = expandEach (fun x => if x = c then r else [x]) s := by
  induction s with
  | nil => rfl
  | cons x xs ih =>
    by_cases h : x = c <;> simp [replaceChar, expandEach, h, ih]

theorem expandEach_expandEach (f g : Char → Str) (s : Str) :
    expandEach g (expandEach f s) =
      expandEach (fun c => expandEach g (f c)) s := by
  induction s with
  | nil => rfl
  | cons c rest ih => simp [expandEach, expandEach_append, ih]

theorem expandEach_congr (f g : Char → Str) (s : Str)
    (h : ∀ c, f c = g c) : expandEach f s = expandEach g s := by
  induction s with
  | nil => rfl
  | cons c rest ih => simp [expandEach, h, ih]

/-- The sequential character replacements of `escape_edifact` amount to a
single per-character expansion of the control-stripped input. -/
theorem escapeStr_eq_expandEach (s : Str) :
    escapeStr s = expandEach escChar (stripCtrl s) := by
  unfold escapeStr
  simp only [ESCAPE_CHARS, List.foldl_cons, List.foldl_nil]
  simp only [replaceChar_eq_expandEach, expandEach_expandEach]
  apply expandEach_congr
  intro c
  by_cases h1 : c = '?'
  · subst h1; simp [expandEach, escChar, ESCAPE_CHARS, apos]
  · by_cases h2 : c = apos
    · subst h2; simp [expandEach, escChar, ESCAPE_CHARS]; decide
    · by_cases h3 : c = '+'
      · subst h3; simp [expandEach, escChar, ESCAPE_CHARS, apos]
      · by_cases h4 : c = ':'
        · subst h4; simp [expandEach, escChar, ESCAPE_CHARS, apos]
        · by_cases h5 : c = '*'
          · subst h5; simp [expandEach, escChar, ESCAPE_CHARS, apos]
          · simp [expandEach, escChar, ESCAPE_CHARS, h1, h2, h3, h4, h5]

theorem escChar_shape (c : Char) :
    (escChar c = ['?', '?'] ∧ c = '?') ∨
    (escChar c = ['?', c] ∧ c ∈ ESCAPE_CHARS) ∨
    (escChar c = [c] ∧ c ≠ '?' ∧ c ∉ ESCAPE_CHARS) := by
  unfold escChar
  by_cases h1 : c = '?'
  · left; simp [h1]
  · by_cases h2 : c ∈ ESCAPE_CHARS
    · right; left; simp [h1, h2]
    · right; right; simp [h1, h2]

theorem deescape_cons_of_ne (c : Char) (l : Str) (h : c ≠ '?') :
    deescape (c :: l) = c :: deescape l := by
  cases l with
  | nil => simp [deescape, h]
  | cons d rest => simp [deescape, h]

theorem deescape_release (d : Char) (l : Str) :
    deescape ('?' :: d :: l) = d :: deescape l := by
  simp [deescape]

theorem hasUnescaped_cons_of_ne (c : Char) (l : Str) (h : c ≠ '?') :
    hasUnescapedReserved (c :: l) =
      (ESCAPE_CHARS.contains c || hasUnescapedReserved l) := by
  cases l with
  | nil => simp [hasUnescapedReserved, h]
  | cons d rest => simp [hasUnescapedReserved, h]

theorem hasUnescaped_release (d : Char) (l : Str) :
    hasUnescapedReserved ('?' :: d :: l) = hasUnescapedReserved l := by
  simp [hasUnescapedReserved]

theorem deescape_expandEach (xs : Str) :
    deescape (expandEach escChar xs) = xs := by
  induction xs with
  | nil => rfl
  | cons c rest ih =>
    rcases escChar_shape c with ⟨he, hc⟩ | ⟨he, _⟩ | ⟨he, hq, _⟩
    · rw [expandEach, he]
      simp only [List.cons_append, List.nil_append, deescape_release, ih]
      rw [hc]
    · rw [expandEach, he]
      simp only [List.cons_append, List.nil_append, deescape_release, ih]
    · rw [expandEach, he]
      simp only [List.cons_append, List.nil_append]
      rw [deescape_cons_of_ne c _ hq, ih]

theorem hasUnescaped_expandEach (xs : Str) :
    hasUnescapedReserved (expandEach escChar xs) = false := by
  induction xs with
  | nil => rfl
  | cons c rest ih =>
    rcases escChar_shape c with ⟨he, _⟩ | ⟨he, _⟩ | ⟨he, hq, hm⟩
    · rw [expandEach, he]
      simp only [List.cons_append, List.nil_append, hasUnescaped_release, ih]
    · rw [expandEach, he]
      simp only [List.cons_append, List.nil_append, hasUnescaped_release, ih]
    · have hcont : ESCAPE_CHARS.contains c = false := by simpa using hm
      rw [expandEach, he]
      simp only [List.cons_append, List.nil_append,
        hasUnescaped_cons_of_ne c _ hq, hcont, ih, Bool.false_or]

theorem noCtrl_expandEach (xs : Str) (h : ∀ c ∈ xs, isCtrl c = false) :
    ∀ d ∈ expandEach escChar xs, isCtrl d = false := by
  induction xs with
  | nil => simp [expandEach]
  | cons c rest ih =>
    intro d hd
    simp only [expandEach, List.mem_append] at hd
    rcases hd with hd | hd
    · have hc : isCtrl c = false := h c (by simp)
      rcases escChar_shape c with ⟨he, _⟩ | ⟨he, hm⟩ | ⟨he, _, _⟩ <;>
        rw [he] at hd <;> simp at hd
      · rw [hd]; decide
      · rcases hd with hd | hd
        · rw [hd]; decide
        · rw [hd]; exact hc
      · rw [hd]; exact hc
    · exact ih (fun c hc => h c (by simp [hc])) d hd

theorem stripCtrl_noCtrl (s : Str) : ∀ c ∈ stripCtrl s, isCtrl c = false := by
  intro c hc
  simp only [stripCtrl, List.mem_filter] at hc
  simpa using hc.2

/-- C5: escaping is safe and reversible.  For every input string the output
of `escape_edifact` holds no control character and no unescaped reserved
character; de-escaping it recovers the input with its control characters
removed (this covers inputs containing the release character, which is
quantified over); and `escape_edifact None` is the empty string. -/
theorem escape_edifact_safe_and_reversible :
    (∀ s : Str,
      (escape_edifact (some s)).all (fun d => !(isCtrl d)) = true ∧
      hasUnescapedReserved (escape_edifact (some s)) = false ∧
      deescape (escape_edifact (some s)) = stripCtrl s) ∧
    escape_edifact none = [] := by
  refine ⟨fun s => ?_, rfl⟩
  have he : escape_edifact (some s) = expandEach escChar (stripCtrl s) := by
    simp [escape_edifact, escapeStr_eq_expandEach]
  refine ⟨?_, ?_, ?_⟩
  · rw [he, List.all_eq_true]
    intro d hd
    simp [noCtrl_expandEach _ (stripCtrl_noCtrl s) d hd]
  · rw [he]; exact hasUnescaped_expandEach _
  · rw [he]; exact deescape_expandEach _

/-- Python `Decimal.quantize(Decimal(config.decimal_rounding), ROUND_HALF_UP)`
with `decimal_rounding` a power of ten: rounding to `d` fractional digits,
ties away from zero.  The default configuration has `d = 2` (`"0.01"`). -/
def quantizeHU (d : ℕ) (x : ℚ) : ℚ :=
  if x < 0 then -(((⌊(-x) * (10:ℚ)^d + 1/2⌋ : ℤ) : ℚ) / (10:ℚ)^d)
  else ((⌊x * (10:ℚ)^d + 1/2⌋ : ℤ) : ℚ) / (10:ℚ)^d

theorem floor_add_half_intCast (n : ℤ) : ⌊(n : ℚ) + 1/2⌋ = n := by
  rw [add_comm, Int.floor_add_int]
  norm_num

theorem quantizeHU_intCast_div (d : ℕ) (n : ℤ) (hn : 0 ≤ n) :
    quantizeHU d ((n : ℚ) / (10:ℚ)^d) = (n : ℚ) / (10:ℚ)^d := by
  have hP : (0:ℚ) < (10:ℚ)^d := by positivity
  have hx : (0:ℚ) ≤ (n : ℚ) / (10:ℚ)^d :=
    div_nonneg (by exact_mod_cast hn) (le_of_lt hP)
  rw [quantizeHU, if_neg (not_lt.mpr hx), div_mul_cancel₀ _ (ne_of_gt hP),
    floor_add_half_intCast]

theorem quantizeHU_neg_intCast_div (d : ℕ) (n : ℤ) (hn : 0 < n) :
    quantizeHU d (-((n : ℚ) / (10:ℚ)^d)) = -((n : ℚ) / (10:ℚ)^d) := by
  have hP : (0:ℚ) < (10:ℚ)^d := by positivity
  have hneg : -((n : ℚ) / (10:ℚ)^d) < 0 := by
    have h1 : (0:ℚ) < (n : ℚ) / (10:ℚ)^d :=
      div_pos (by exact_mod_cast hn) hP
    linarith
  rw [quantizeHU, if_pos hneg, neg_neg, div_mul_cancel₀ _ (ne_of_gt hP),
    floor_add_half_intCast]

theorem quantizeHU_idem (d : ℕ) (x : ℚ) :
    quantizeHU d (quantizeHU d x) = quantizeHU d x := by
  have hP : (0:ℚ) < (10:ℚ)^d := by positivity
  by_cases hx : x < 0
  · have hqx : quantizeHU d x =
        -(((⌊(-x) * (10:ℚ)^d + 1/2⌋ : ℤ) : ℚ) / (10:ℚ)^d) := by
      rw [quantizeHU, if_pos hx]
    have hm0 : 0 ≤ ⌊(-x) * (10:ℚ)^d + 1/2⌋ := by
      apply Int.floor_nonneg.mpr
      have h1 : (0:ℚ) ≤ (-x) * (10:ℚ)^d :=
        mul_nonneg (by linarith) (le_of_lt hP)
      linarith
    rcases lt_or_eq_of_le hm0 with hpos | hzero
    · rw [hqx]
      exact quantizeHU_neg_intCast_div d _ hpos
    · have h0 : quantizeHU d 0 = 0 := by
        have h00 := quantizeHU_intCast_div d 0 le_rfl
        simpa using h00
      rw [hqx, ← hzero]
      simpa using h0
  · have hqx : quantizeHU d x =
        ((⌊x * (10:ℚ)^d + 1/2⌋ : ℤ) : ℚ) / (10:ℚ)^d := by
      rw [quantizeHU, if_neg hx]
    rw [hqx]
    apply quantizeHU_intCast_div
    apply Int.floor_nonneg.mpr
    have h1 : (0:ℚ) ≤ x * (10:ℚ)^d :=
      mul_nonneg (not_lt.mp hx) (le_of_lt hP)
    linarith

/-- C6: monetary quantization rounds half-up (ties away from zero) at the
configured precision — `2.345` at two decimals gives `2.35` and `2.344`
gives `2.34` — and quantizing an already-quantized value changes nothing. -/
theorem quantizeHU_half_up_and_idem :
    quantizeHU 2 (2345/1000) = 235/100 ∧
    quantizeHU 2 (2344/1000) = 234/100 ∧
    ∀ (d : ℕ) (x : ℚ), quantizeHU d (quantizeHU d x) = quantizeHU d x := by
  refine ⟨?_, ?_, quantizeHU_idem⟩ <;> norm_num [quantizeHU]

instance exceptDecEq {ε α : Type} [DecidableEq ε] [DecidableEq α] :
    DecidableEq (Except ε α) := fun x y =>
  match x, y with
  | .ok a, .ok b =>
    if h : a = b then .isTrue (by rw [h])
    else .isFalse (by intro hc; cases hc; exact h rfl)
  | .ok _, .error _ => .isFalse (by intro hc; cases hc)
  | .error _, .ok _ => .isFalse (by intro hc; cases hc)
  | .error e, .error f =>
    if h : e = f then .isTrue (by rw [h])
    else .isFalse (by intro hc; cases hc; exact h rfl)

/-- Python `str` of a natural number (digit list, base 10). -/
def natStr (n : ℕ) : Str := Nat.toDigits 10 n

/-- Python `str` of an integer. -/
def intStr (z : ℤ) : Str :=
  if z < 0 then '-' :: natStr z.natAbs else natStr z.natAbs

/-- Python `str` of a Decimal with exponent `-d` (the form produced by
`quantize` at `d` fractional digits): sign, integer part, decimal point,
then exactly `d` fraction digits.  The argument is expected to be a
multiple of `10 ^ (-d)`; `⌊·⌋` recovers its scaled integer value. -/
def renderDec (d : ℕ) (x : ℚ) : Str :=
  let m : ℤ := ⌊x * (10:ℚ)^d⌋
  let a : ℕ := m.natAbs
  let fd : Str := natStr (a % 10^d)
  let core : Str :=
    if d = 0 then natStr a
    else natStr (a / 10^d) ++ '.' :: (List.replicate (d - fd.length) '0' ++ fd)
  if m < 0 then '-' :: core else core

/-- EdifactConfig of the source.  `decimal_rounding` (a power-of-ten string
such as the default `"0.01"`) is modelled by its number of fractional
digits `decimals`; all other fields mirror the dataclass. -/
structure EdifactConfig where
  una_segment : Str
  message_type : Str
  date_format : Str
  version : Str
  release : Str
  controlling_agency : Str
  decimals : ℕ
  line_ending : Str
  include_una : Bool
  sender_id : Str
  receiver_id : Str
  max_segment_length : ℕ
  max_field_length : ℕ
  allowed_qualifiers : List Str
  deriving DecidableEq

/-- The default EdifactConfig (all dataclass defaults, with
`allowed_qualifiers` resolved by `__post_init__`). -/
def defaultConfig : EdifactConfig where
  una_segment := lstr "UNA:+.? " ++ [apos]
  message_type := lstr "ORDERS"
  date_format := lstr "102"
  version := lstr "D"
  release := lstr "96A"
  controlling_agency := lstr "UN"
  decimals := 2
  line_ending := ['\n']
  include_una := true
  sender_id := lstr "SENDER"
  receiver_id := lstr "RECEIVER"
  max_segment_length := 2000
  max_field_length := 70
  allowed_qualifiers := [lstr "BY", lstr "SU", lstr "DP", lstr "IV", lstr "CB"]

/-- Validity checks of `EdifactConfig.__post_init__`: every qualifier has
exactly two characters and `max_segment_length` is at least 10. -/
def configOk (cfg : EdifactConfig) : Bool :=
  cfg.allowed_qualifiers.all (fun q => q.length == 2) &&
    10 ≤ cfg.max_segment_length

/-- An order item as produced by validation (`OrderItem` TypedDict):
`quantity` already an integer, `price` an exact decimal. -/
structure OrderItem where
  product_code : Str
  description : Str
  quantity : ℤ
  price : ℚ
  unit : Str
  deriving DecidableEq

/-- An order party as consumed by generation (`OrderParty` TypedDict). -/
structure OrderParty where
  qualifier : Str
  id : Str
  name : Option Str
  address : Option Str
  contact : Option Str
  deriving DecidableEq

/-- A validated order record (`OrderData` TypedDict as produced by
`validate_order_data`): `tax_rate` an exact decimal when present. -/
structure OrderData where
  message_ref : Str
  order_number : Str
  order_date : Str
  parties : List OrderParty
  items : List OrderItem
  delivery_date : Option Str
  currency : Option Str
  delivery_location : Option Str
  payment_terms : Option Str
  tax_rate : Option ℚ
  special_instructions : Option Str
  incoterms : Option Str
  deriving DecidableEq

/-- Python truthiness of an optional string (`if validated_data.get(k):`). -/
def truthy : Option Str → Bool
  | none => false
  | some s => !s.isEmpty

/-- Error raised during segment generation (`EdifactGenerationError` codes
raised inside segment builders): SEGMENT_001 for an over-long segment,
VALID_009 for a decimal exceeding the configured precision. -/
inductive ContentErr where
  | segment001
  | valid009
  deriving DecidableEq

/-- Error raised by `generate_edifact_orders`: either an error propagated
from segment construction, or the GEN_001 internal-consistency fault
(UNH segment missing). -/
inductive GenErr where
  | content (e : ContentErr)
  | gen001
  deriving DecidableEq

/-- SegmentGenerator.validate_segment_length: rejects a segment longer
than `max_segment_length` with SEGMENT_001, otherwise passes it through. -/
def checkSeg (cfg : EdifactConfig) (s : Str) : Except ContentErr Str :=
  if cfg.max_segment_length < s.length then .error .segment001 else .ok s

/-- SegmentGenerator.validate_decimal_precision: a value that differs from
its own quantization at the configured precision raises VALID_009. -/
def precCheck (cfg : EdifactConfig) (x : ℚ) : Except ContentErr Unit :=
  if x = quantizeHU cfg.decimals x then .ok () else .error .valid009

/-- Segment text of SegmentGenerator.unb (timestamp passed in: the source
reads `datetime.now()`, an input of the computation). -/
def unbRender (cfg : EdifactConfig) (now ref : Str) : Str :=
  lstr "UNB+UNOA:2+" ++ escapeStr cfg.sender_id ++ lstr "+" ++
    escapeStr cfg.receiver_id ++ lstr "+" ++ now ++ lstr "+" ++
    escapeStr ref ++ [apos]

/-- Segment text of SegmentGenerator.unh. -/
def unhRender (cfg : EdifactConfig) (ref : Str) : Str :=
  lstr "UNH+" ++ escapeStr ref ++ lstr "+" ++ cfg.message_type ++
    lstr ":" ++ cfg.version ++ lstr ":" ++ cfg.release ++ lstr ":" ++
    cfg.controlling_agency ++ [apos]

/-- Segment text of SegmentGenerator.bgm (document type 220, function 9). -/
def bgmRender (order_number : Str) : Str :=
  lstr "BGM+220+" ++ escapeStr order_number ++ lstr "+9" ++ [apos]

/-- Segment text of SegmentGenerator.dtm. -/
def dtmRender (qualifier date date_format : Str) : Str :=
  lstr "DTM+" ++ qualifier ++ lstr ":" ++ escapeStr date ++ lstr ":" ++
    date_format ++ [apos]

/-- The inline currency segment of generate_edifact_orders. -/
def cuxRender (currency : Str) : Str :=
  lstr "CUX+2:" ++ escapeStr currency ++ lstr ":9" ++ [apos]

/-- Segment text of SegmentGenerator.nad (name truncated to the maximum
field length when present and non-empty). -/
def nadRender (cfg : EdifactConfig) (qualifier pid : Str)
    (name : Option Str) : Str :=
  let base := lstr "NAD+" ++ escapeStr qualifier ++ lstr "+" ++
    escapeStr pid ++ lstr "::91"
  if truthy name then
    base ++ lstr "++" ++ escapeStr ((name.getD []).take cfg.max_field_length)
      ++ [apos]
  else base ++ [apos]

/-- Segment text of SegmentGenerator.com. -/
def comRender (contact contact_type : Str) : Str :=
  lstr "COM+" ++ escapeStr contact ++ lstr ":" ++ escapeStr contact_type ++
    [apos]

/-- Segment text of SegmentGenerator.lin. -/
def linRender (line_num : ℕ) (product_code : Str) : Str :=
  lstr "LIN+" ++ natStr line_num ++ lstr "++" ++ escapeStr product_code ++
    lstr ":EN" ++ [apos]

/-- Segment text of SegmentGenerator.imd (description truncated). -/
def imdRender (cfg : EdifactConfig) (description : Str) : Str :=
  lstr "IMD+F++:::" ++ escapeStr (description.take cfg.max_field_length) ++
    [apos]

/-- Segment text of SegmentGenerator.qty (qualifier 21). -/
def qtyRender (quantity : ℤ) (unit : Str) : Str :=
  lstr "QTY+21:" ++ intStr quantity ++ lstr ":" ++ escapeStr unit ++ [apos]

/-- Segment text of SegmentGenerator.pri (quantized price). -/
def priRender (cfg : EdifactConfig) (price : ℚ) (unit : Str) : Str :=
  lstr "PRI+AAA:" ++ renderDec cfg.decimals (quantizeHU cfg.decimals price)
    ++ lstr ":" ++ escapeStr unit ++ [apos]

/-- Segment text of SegmentGenerator.moa (quantized amount). -/
def moaRender (cfg : EdifactConfig) (qualifier : Str) (amount : ℚ) : Str :=
  lstr "MOA+" ++ escapeStr qualifier ++ lstr ":" ++
    renderDec cfg.decimals (quantizeHU cfg.decimals amount) ++ [apos]

/-- Segment text of SegmentGenerator.tax (type VAT, quantized rate). -/
def taxRender (cfg : EdifactConfig) (rate : ℚ) : Str :=
  lstr "TAX+7+" ++ escapeStr (lstr "VAT") ++ lstr "+++:::" ++
    renderDec cfg.decimals (quantizeHU cfg.decimals rate) ++ [apos]

/-- Segment text of SegmentGenerator.loc (qualifier 11, code list 92). -/
def locRender (location : Str) : Str :=
  lstr "LOC+" ++ escapeStr (lstr "11") ++ lstr "+" ++ escapeStr location ++
    lstr ":92" ++ [apos]

/-- Segment text of SegmentGenerator.pai. -/
def paiRender (terms : Str) : Str :=
  lstr "PAI+" ++ escapeStr terms ++ lstr ":3" ++ [apos]

/-- Segment text of SegmentGenerator.tod (qualifier 5). -/
def todRender (incoterms : Str) : Str :=
  lstr "TOD+5++" ++ escapeStr incoterms ++ [apos]

/-- Segment text of SegmentGenerator.ftx (qualifier AAI, numbered
sequence, text truncated to the maximum field length). -/
def ftxRender (cfg : EdifactConfig) (text : Str) (sequence : ℕ) : Str :=
  lstr "FTX+AAI+" ++ natStr sequence ++ lstr "+++" ++
    escapeStr (text.take cfg.max_field_length) ++ [apos]

/-- Segment text of SegmentGenerator.unt (declared count, message ref). -/
def untRender (segment_count : ℕ) (ref : Str) : Str :=
  lstr "UNT+" ++ natStr segment_count ++ lstr "+" ++ escapeStr ref ++ [apos]

/-- Segment text of SegmentGenerator.unz (message count fixed at 1). -/
def unzRender (ref : Str) : Str :=
  lstr "UNZ+1+" ++ escapeStr ref ++ [apos]

/-- Fuel-driven core of the chunking list comprehension
`[s[i:i+n] for i in range(0, len(s), n)]` (fuel bounds the number of
chunks; `s.length` always suffices for a positive step). -/
def chunkListAux (fuel n : ℕ) (s : Str) : List Str :=
  match fuel with
  | 0 => []
  | fuel + 1 =>
    if n = 0 ∨ s.isEmpty then []
    else s.take n :: chunkListAux fuel n (s.drop n)

/-- Splitting of `special_instructions` into consecutive chunks of size
`n` (the Python slice comprehension; a zero step would raise in Python
and yields the empty list here, a case generation never reaches). -/
def chunkList (n : ℕ) (s : Str) : List Str := chunkListAux s.length n s

/-- Emission of a segment for an optional field guarded by truthiness
(`if validated_data.get(k):` followed by one `segments.append`). -/
def optSegs (cfg : EdifactConfig) (o : Option Str) (f : Str → Str) :
    Except ContentErr (List Str) :=
  if truthy o then do
    let c ← checkSeg cfg (f (o.getD []))
    .ok [c]
  else .ok []

/-- Segments of one party: NAD, then COM(AD) for a truthy address, then
COM(TE) for a truthy contact. -/
def partySegs (cfg : EdifactConfig) (p : OrderParty) :
    Except ContentErr (List Str) := do
  let n ← checkSeg cfg (nadRender cfg p.qualifier p.id p.name)
  let a ← optSegs cfg p.address (fun s => comRender s (lstr "AD"))
  let c ← optSegs cfg p.contact (fun s => comRender s (lstr "TE"))
  .ok (n :: (a ++ c))

/-- The party loop of generate_edifact_orders. -/
def partiesSegs (cfg : EdifactConfig) : List OrderParty →
    Except ContentErr (List Str)
  | [] => .ok []
  | p :: rest => do
    let a ← partySegs cfg p
    let b ← partiesSegs cfg rest
    .ok (a ++ b)

/-- The effective unit of an item (`item.get("unit", "EA") or "EA"`). -/
def unitOf (it : OrderItem) : Str :=
  if it.unit.isEmpty then lstr "EA" else it.unit

/-- Rounded line total of one item:
`(price * Decimal(quantity)).quantize(precision, ROUND_HALF_UP)`. -/
def lineTotal (cfg : EdifactConfig) (it : OrderItem) : ℚ :=
  quantizeHU cfg.decimals (it.price * (it.quantity : ℚ))

/-- The four segments of one item line: LIN, IMD, QTY, PRI (the PRI
builder checks the price against the configured precision first). -/
def itemSegs1 (cfg : EdifactConfig) (idx : ℕ) (it : OrderItem) :
    Except ContentErr (List Str) := do
  let l ← checkSeg cfg (linRender idx it.product_code)
  let im ← checkSeg cfg (imdRender cfg it.description)
  let q ← checkSeg cfg (qtyRender it.quantity (unitOf it))
  let _ ← precCheck cfg it.price
  let p ← checkSeg cfg (priRender cfg it.price (unitOf it))
  .ok [l, im, q, p]

/-- The item loop of generate_edifact_orders: emits the per-item segments
and accumulates the running goods total of rounded line totals. -/
def itemsSegs (cfg : EdifactConfig) : List OrderItem → ℕ → ℚ →
    Except ContentErr (List Str × ℚ)
  | [], _, acc => .ok ([], acc)
  | it :: rest, idx, acc => do
    let s ← itemSegs1 cfg idx it
    let r ← itemsSegs cfg rest (idx + 1) (acc + lineTotal cfg it)
    .ok (s ++ r.1, r.2)

/-- The tax block of generate_edifact_orders: for a present (non-None)
tax rate, computes the rounded tax amount on the goods total, emits TAX
and MOA(124), and adds the tax amount to the total. -/
def taxBlock (cfg : EdifactConfig) (rate? : Option ℚ) (goods : ℚ) :
    Except ContentErr (List Str × ℚ) :=
  match rate? with
  | none => .ok ([], goods)
  | some rate => do
    let ta := quantizeHU cfg.decimals (goods * rate / 100)
    let _ ← precCheck cfg rate
    let t ← checkSeg cfg (taxRender cfg rate)
    let _ ← precCheck cfg ta
    let m ← checkSeg cfg (moaRender cfg (lstr "124") ta)
    .ok ([t, m], goods + ta)

/-- The FTX loop: one segment per chunk, sequence numbers from `i0`. -/
def ftxChunks (cfg : EdifactConfig) : List Str → ℕ →
    Except ContentErr (List Str)
  | [], _ => .ok []
  | c :: rest, i => do
    let f ← checkSeg cfg (ftxRender cfg c i)
    let more ← ftxChunks cfg rest (i + 1)
    .ok (f :: more)

/-- The special-instructions block: chunk and emit FTX segments when the
field is truthy. -/
def ftxAll (cfg : EdifactConfig) (instr : Option Str) :
    Except ContentErr (List Str) :=
  if truthy instr then
    ftxChunks cfg (chunkList cfg.max_field_length (instr.getD [])) 1
  else .ok []

/-- All message segments after UNH: BGM, DTM(137), optional DTM(2) and
CUX, parties, items, tax block, optional LOC, PAI, TOD, FTX chunks, and
the MOA(79) grand total, in source order. -/
def midSegs (v : OrderData) (cfg : EdifactConfig) :
    Except ContentErr (List Str) := do
  let bgm ← checkSeg cfg (bgmRender v.order_number)
  let dtm1 ← checkSeg cfg (dtmRender (lstr "137") v.order_date
    cfg.date_format)
  let dtm2 ← optSegs cfg v.delivery_date
    (fun s => dtmRender (lstr "2") s cfg.date_format)
  let cux ← optSegs cfg v.currency cuxRender
  let pts ← partiesSegs cfg v.parties
  let its ← itemsSegs cfg v.items 1 0
  let taxb ← taxBlock cfg v.tax_rate its.2
  let locs ← optSegs cfg v.delivery_location locRender
  let pais ← optSegs cfg v.payment_terms paiRender
  let tods ← optSegs cfg v.incoterms todRender
  let ftxs ← ftxAll cfg v.special_instructions
  let _ ← precCheck cfg taxb.2
  let moa79 ← checkSeg cfg (moaRender cfg (lstr "79") taxb.2)
  .ok (bgm :: dtm1 :: (dtm2 ++ cux ++ pts ++ its.1 ++ taxb.1 ++ locs ++
    pais ++ tods ++ ftxs ++ [moa79]))

/-- All content segments before UNT/UNZ: optional UNA, UNB, UNH, then the
message body. -/
def generateContent (v : OrderData) (cfg : EdifactConfig) (now : Str) :
    Except ContentErr (List Str) := do
  let s1 ← checkSeg cfg (unbRender cfg now v.message_ref)
  let s2 ← checkSeg cfg (unhRender cfg v.message_ref)
  let mid ← midSegs v cfg
  .ok ((if cfg.include_una then [cfg.una_segment] else []) ++
    s1 :: s2 :: mid)

/-- Whether a segment starts with `"UNH+"` (the scan predicate of the
envelope-count pass). -/
def isUNH (s : Str) : Bool := (lstr "UNH+").isPrefixOf s

/-- Index of the first segment starting with `"UNH+"` (the
`for i, s in enumerate(flat_segments)` scan). -/
def findUNH : List Str → Option ℕ
  | [] => none
  | s :: rest =>
    if isUNH s then some 0 else (findUNH rest).map (fun n => n + 1)

/-- Wraps a segment-construction error into a generation error. -/
def mapErr {α : Type} : Except ContentErr α → Except GenErr α
  | .ok a => .ok a
  | .error e => .error (.content e)

/-- generate_edifact_orders on a validated order: build all content
segments, locate the first UNH segment (GEN_001 if absent), append UNT
with count `len(flat_segments) - unh_index + 1` and UNZ.  The current
timestamp of the UNB builder is an explicit input `now`. -/
def generate_edifact_orders (v : OrderData) (cfg : EdifactConfig)
    (now : Str) : Except GenErr (List Str) := do
  let content ← mapErr (generateContent v cfg now)
  let i ← (match findUNH content with
    | none => .error GenErr.gen001
    | some i => .ok i)
  let unt ← mapErr (checkSeg cfg
    (untRender (content.length - i + 1) v.message_ref))
  let unz ← mapErr (checkSeg cfg (unzRender v.message_ref))
  .ok (content ++ [unt, unz])

theorem checkSeg_ok (cfg : EdifactConfig) (s t : Str)
    (h : checkSeg cfg s = .ok t) : t = s := by
  unfold checkSeg at h
  split at h
  · cases h
  · cases h; rfl

theorem generateContent_ok (v : OrderData) (cfg : EdifactConfig)
    (now : Str) (content : List Str)
    (h : generateContent v cfg now = .ok content) :
    ∃ mid, midSegs v cfg = .ok mid ∧
      content = (if cfg.include_una then [cfg.una_segment] else []) ++
        unbRender cfg now v.message_ref ::
        unhRender cfg v.message_ref :: mid := by
  unfold generateContent at h
  cases h1 : checkSeg cfg (unbRender cfg now v.message_ref) with
  | error e => rw [h1] at h; simp [Bind.bind, Except.bind] at h
  | ok s1 =>
    rw [h1] at h
    cases h2 : checkSeg cfg (unhRender cfg v.message_ref) with
    | error e => rw [h2] at h; simp [Bind.bind, Except.bind] at h
    | ok s2 =>
      rw [h2] at h
      cases h3 : midSegs v cfg with
      | error e => rw [h3] at h; simp [Bind.bind, Except.bind] at h
      | ok mid =>
        rw [h3] at h
        simp only [Bind.bind, Except.bind, Except.ok.injEq] at h
        refine ⟨mid, rfl, ?_⟩
        rw [← h, checkSeg_ok _ _ _ h1, checkSeg_ok _ _ _ h2]

theorem isPrefixOf_append_self (p t : Str) :
    p.isPrefixOf (p ++ t) = true := by
  induction p with
  | nil => simp [List.isPrefixOf]
  | cons c rest ih => simp [List.isPrefixOf, ih]

theorem isUNH_unhRender (cfg : EdifactConfig) (ref : Str) :
    isUNH (unhRender cfg ref) = true := by
  exact isPrefixOf_append_self (lstr "UNH+") _

theorem findUNH_ne_none (l : List Str) (s : Str) (hs : s ∈ l)
    (hu : isUNH s = true) : findUNH l ≠ none := by
  induction l with
  | nil => cases hs
  | cons a rest ih =>
    unfold findUNH
    by_cases ha : isUNH a
    · simp [ha]
    · rcases List.mem_cons.mp hs with h | h
      · subst h; exact absurd hu ha
      · simp only [ha, if_neg, Bool.false_eq_true, if_false]
        intro hc
        exact ih h (Option.map_eq_none.mp hc)

theorem findUNH_spec (l : List Str) (i : ℕ) (h : findUNH l = some i) :
    i < l.length ∧ isUNH (l.getD i []) = true ∧
      ∀ j, j < i → isUNH (l.getD j []) = false := by
  induction l generalizing i with
  | nil => simp [findUNH] at h
  | cons s rest ih =>
    unfold findUNH at h
    by_cases hs : isUNH s
    · simp only [hs, if_true, Option.some.injEq] at h
      subst h
      exact ⟨by simp, by simpa using hs, by intro j hj; omega⟩
    · rw [if_neg (by simpa using hs)] at h
      cases hfr : findUNH rest with
      | none => rw [hfr] at h; cases h
      | some k =>
        rw [hfr] at h
        simp only [Option.map_some', Option.some.injEq] at h
        subst h
        obtain ⟨h1, h2, h3⟩ := ih k hfr
        refine ⟨by simpa using h1, by simpa using h2, ?_⟩
        intro j hj
        cases j with
        | zero => simpa using hs
        | succ j => simpa using h3 j (by omega)

/-- Whether a generation result is the GEN_001 internal fault. -/
def isGEN001 {α : Type} : Except GenErr α → Bool
  | .error .gen001 => true
  | _ => false

/-- C9: a validated order always yields a UNH segment before the scan, so
the GEN_001 branch (UNH segment missing) is unreachable —
generate_edifact_orders never fails with GEN_001 on any validated order,
configuration and timestamp. -/
theorem generate_never_gen001 (v : OrderData) (cfg : EdifactConfig)
    (now : Str) : isGEN001 (generate_edifact_orders v cfg now) = false := by
  unfold generate_edifact_orders
  cases hc : generateContent v cfg now with
  | error e => simp [mapErr, Bind.bind, Except.bind, isGEN001]
  | ok content =>
    obtain ⟨mid, _, hcontent⟩ := generateContent_ok v cfg now content hc
    have hmem : unhRender cfg v.message_ref ∈ content := by
      rw [hcontent]; simp
    have hunh : findUNH content ≠ none :=
      findUNH_ne_none content _ hmem (isUNH_unhRender cfg v.message_ref)
    cases hf : findUNH content with
    | none => exact absurd hf hunh
    | some i =>
      simp only [mapErr, Bind.bind, Except.bind, hf]
      cases h4 : checkSeg cfg
          (untRender (content.length - i + 1) v.message_ref) with
      | error e => simp [mapErr, isGEN001]
      | ok unt =>
        simp only [mapErr]
        cases h5 : checkSeg cfg (unzRender v.message_ref) with
        | error e => simp [mapErr, isGEN001]
        | ok unz => simp [mapErr, isGEN001]

theorem generate_ok_structure (v : OrderData) (cfg : EdifactConfig)
    (now : Str) (flat : List Str)
    (h : generate_edifact_orders v cfg now = .ok flat) :
    ∃ content i,
      generateContent v cfg now = .ok content ∧
      findUNH content = some i ∧
      isUNH (content.getD i []) = true ∧
      (∀ j, j < i → isUNH (content.getD j []) = false) ∧
      flat = content ++
        [untRender (content.length - i + 1) v.message_ref,
          unzRender v.message_ref] := by
  unfold generate_edifact_orders at h
  cases hc : generateContent v cfg now with
  | error e => rw [hc] at h; simp [mapErr, Bind.bind, Except.bind] at h
  | ok content =>
    rw [hc] at h
    simp only [mapErr, Bind.bind, Except.bind] at h
    cases hf : findUNH content with
    | none => rw [hf] at h; simp at h
    | some i =>
      rw [hf] at h
      simp only [] at h
      cases h4 : checkSeg cfg
          (untRender (content.length - i + 1) v.message_ref) with
      | error e => rw [h4] at h; simp [mapErr] at h
      | ok unt =>
        rw [h4] at h
        simp only [mapErr] at h
        cases h5 : checkSeg cfg (unzRender v.message_ref) with
        | error e => rw [h5] at h; simp [mapErr] at h
        | ok unz =>
          rw [h5] at h
          simp only [mapErr, Except.ok.injEq] at h
          obtain ⟨_, h2, h3⟩ := findUNH_spec content i hf
          refine ⟨content, i, rfl, hf, h2, h3, ?_⟩
          rw [← h, checkSeg_ok _ _ _ h4, checkSeg_ok _ _ _ h5]

/-- C1: on every successful generation the appended UNT segment declares
a count equal to the number of flat content segments minus the index of
the first segment starting with `"UNH+"` plus one (the UNT itself), i.e.
`len(flat_segments) - unh_index + 1` at counting time; the theorem holds
for all validated orders, so in particular for one item and one party and
for many items and many parties. -/
theorem unt_count_correct (v : OrderData) (cfg : EdifactConfig)
    (now : Str) (flat : List Str)
    (h : generate_edifact_orders v cfg now = .ok flat) :
    ∃ content i,
      generateContent v cfg now = .ok content ∧
      findUNH content = some i ∧
      isUNH (content.getD i []) = true ∧
      (∀ j, j < i → isUNH (content.getD j []) = false) ∧
      flat = content ++
        [untRender (content.length - i + 1) v.message_ref,
          unzRender v.message_ref] :=
  generate_ok_structure v cfg now flat h

/-- A validated order with exactly one item (quantity 10, price 12.50)
and one party — the end-to-end scenario of the specification. -/
def ordA : OrderData where
  message_ref := lstr "ORD0001"
  order_number := lstr "PO-1"
  order_date := lstr "20250101"
  parties := [
    { qualifier := lstr "BY", id := lstr "123",
      name := some (lstr "Buyer"), address := none, contact := none }]
  items := [
    { product_code := lstr "ITEM001", description := lstr "Widget",
      quantity := 10, price := 125/10, unit := lstr "EA" }]
  delivery_date := none
  currency := none
  delivery_location := none
  payment_terms := none
  tax_rate := none
  special_instructions := none
  incoterms := none

/-- A validated order with three items and two parties. -/
def ordB : OrderData where
  message_ref := lstr "ORD0002"
  order_number := lstr "PO-2"
  order_date := lstr "20250102"
  parties := [
    { qualifier := lstr "BY", id := lstr "123",
      name := some (lstr "Buyer"), address := none,
      contact := some (lstr "b@x") },
    { qualifier := lstr "SU", id := lstr "456", name := none,
      address := some (lstr "Park 1"), contact := none }]
  items := [
    { product_code := lstr "A1", description := lstr "One",
      quantity := 2, price := 5/2, unit := lstr "EA" },
    { product_code := lstr "A2", description := lstr "Two",
      quantity := 1, price := 3, unit := lstr "KG" },
    { product_code := lstr "A3", description := lstr "Three",
      quantity := 7, price := 1/10, unit := [] }]
  delivery_date := some (lstr "20250110")
  currency := some (lstr "USD")
  delivery_location := some (lstr "WH1")
  payment_terms := some (lstr "NET30")
  tax_rate := none
  special_instructions := none
  incoterms := some (lstr "FOB")

/-- A fixed UNB timestamp used by the concrete evaluations. -/
def nowA : Str := lstr "2501011200"

/-- The flat segment list generated for `ordA`. -/
def flatA : List Str :=
  (generate_edifact_orders ordA defaultConfig nowA).toOption.getD []

/-- The flat segment list generated for `ordB`. -/
def flatB : List Str :=
  (generate_edifact_orders ordB defaultConfig nowA).toOption.getD []

unseal Rat.mul Rat.inv Rat.add Rat.sub in
/-- Witness for C1: the count invariant evaluated on a one-item
one-party order and on a three-item two-party order. -/
theorem unt_count_correct_witness :
    (∃ content i,
      generateContent ordA defaultConfig nowA = .ok content ∧
      findUNH content = some i ∧
      isUNH (content.getD i []) = true ∧
      (∀ j, j < i → isUNH (content.getD j []) = false) ∧
      flatA = content ++
        [untRender (content.length - i + 1) ordA.message_ref,
          unzRender ordA.message_ref]) ∧
    (∃ content i,
      generateContent ordB defaultConfig nowA = .ok content ∧
      findUNH content = some i ∧
      isUNH (content.getD i []) = true ∧
      (∀ j, j < i → isUNH (content.getD j []) = false) ∧
      flatB = content ++
        [untRender (content.length - i + 1) ordB.message_ref,
          unzRender ordB.message_ref]) :=
  ⟨unt_count_correct ordA defaultConfig nowA flatA (by decide),
    unt_count_correct ordB defaultConfig nowA flatB (by decide)⟩

/-- The one-item order with tax rate 7.5 added. -/
def ordT : OrderData := { ordA with tax_rate := some (15/2) }

/-- The flat segment list generated for `ordT`. -/
def flatT : List Str :=
  (generate_edifact_orders ordT defaultConfig nowA).toOption.getD []

theorem itemsSegs_total (cfg : EdifactConfig) :
    ∀ (items : List OrderItem) (idx : ℕ) (acc : ℚ)
      (r : List Str × ℚ),
      itemsSegs cfg items idx acc = .ok r →
      r.2 = acc + (items.map (lineTotal cfg)).sum := by
  intro items
  induction items with
  | nil =>
    intro idx acc r h
    simp only [itemsSegs, Except.ok.injEq] at h
    rw [← h]
    simp
  | cons it rest ih =>
    intro idx acc r h
    unfold itemsSegs at h
    cases h1 : itemSegs1 cfg idx it with
    | error e => rw [h1] at h; simp [Bind.bind, Except.bind] at h
    | ok s =>
      rw [h1] at h
      simp only [Bind.bind, Except.bind] at h
      cases h2 : itemsSegs cfg rest (idx + 1) (acc + lineTotal cfg it) with
      | error e => rw [h2] at h; simp at h
      | ok r2 =>
        rw [h2] at h
        simp only [Except.ok.injEq] at h
        have hrec := ih (idx + 1) (acc + lineTotal cfg it) r2 (by rw [h2])
        rw [← h]
        simp only [List.map_cons, List.sum_cons]
        rw [hrec]
        ring

unseal Rat.mul Rat.inv Rat.add Rat.sub in
/-- C4: with one item of quantity 10 and price 12.50 the MOA(79) total
segment encodes 125.00; with tax rate 7.5 added, the MOA(124) tax segment
encodes 9.38 (half-up from 9.375) and MOA(79) encodes 134.38.  In
general the goods total produced by the item loop is the accumulator plus
the sum of per-line rounded totals `round(price * quantity, precision)`,
and the tax block adds `round(goods * rate / 100, precision)` to the
total when a tax rate is present and leaves the total unchanged
otherwise. -/
theorem totals_correct :
    (moaRender defaultConfig (lstr "79") 125 =
      lstr "MOA+79:125.00" ++ [apos] ∧
      moaRender defaultConfig (lstr "79") 125 ∈ flatA) ∧
    (quantizeHU 2 (125 * (15/2) / 100) = 938/100 ∧
      moaRender defaultConfig (lstr "124") (938/100) =
        lstr "MOA+124:9.38" ++ [apos] ∧
      moaRender defaultConfig (lstr "124") (938/100) ∈ flatT ∧
      moaRender defaultConfig (lstr "79") (13438/100) =
        lstr "MOA+79:134.38" ++ [apos] ∧
      moaRender defaultConfig (lstr "79") (13438/100) ∈ flatT) ∧
    (∀ (cfg : EdifactConfig) (items : List OrderItem) (idx : ℕ) (acc : ℚ),
      (itemsSegs cfg items idx acc).map (fun r => r.2) =
        (itemsSegs cfg items idx acc).map
          (fun _ => acc + (items.map (lineTotal cfg)).sum)) ∧
    (∀ (cfg : EdifactConfig) (rate goods : ℚ),
      (taxBlock cfg (some rate) goods).map (fun r => r.2) =
        (taxBlock cfg (some rate) goods).map
          (fun _ => goods + quantizeHU cfg.decimals (goods * rate / 100))) ∧
    (∀ (cfg : EdifactConfig) (goods : ℚ),
      taxBlock cfg none goods = .ok ([], goods)) := by
  refine ⟨⟨by decide, by decide⟩,
    ⟨by decide, by decide, by decide, by decide, by decide⟩, ?_, ?_, ?_⟩
  · intro cfg items idx acc
    cases h : itemsSegs cfg items idx acc with
    | error e => simp [Except.map]
    | ok r =>
      simp only [Except.map, Except.ok.injEq]
      exact itemsSegs_total cfg items idx acc r h
  · intro cfg rate goods
    unfold taxBlock
    simp only [Bind.bind, Except.bind]
    cases h1 : precCheck cfg rate with
    | error e => simp [Except.map]
    | ok u =>
      cases h2 : checkSeg cfg (taxRender cfg rate) with
      | error e => simp [Except.map]
      | ok t =>
        cases h3 : precCheck cfg
            (quantizeHU cfg.decimals (goods * rate / 100)) with
        | error e => simp [Except.map]
        | ok u2 =>
          cases h4 : checkSeg cfg (moaRender cfg (lstr "124")
              (quantizeHU cfg.decimals (goods * rate / 100))) with
          | error e => simp [Except.map]
          | ok m => simp [Except.map]
  · intro cfg goods
    rfl

theorem midSegs_ok (v : OrderData) (cfg : EdifactConfig) (mid : List Str)
    (h : midSegs v cfg = .ok mid) :
    ∃ dtm2 cux pts itsr taxr locs pais tods ftxs,
      optSegs cfg v.delivery_date
        (fun s => dtmRender (lstr "2") s cfg.date_format) = .ok dtm2 ∧
      optSegs cfg v.currency cuxRender = .ok cux ∧
      partiesSegs cfg v.parties = .ok pts ∧
      itemsSegs cfg v.items 1 0 = .ok itsr ∧
      taxBlock cfg v.tax_rate itsr.2 = .ok taxr ∧
      optSegs cfg v.delivery_location locRender = .ok locs ∧
      optSegs cfg v.payment_terms paiRender = .ok pais ∧
      optSegs cfg v.incoterms todRender = .ok tods ∧
      ftxAll cfg v.special_instructions = .ok ftxs ∧
      mid = bgmRender v.order_number ::
        dtmRender (lstr "137") v.order_date cfg.date_format ::
        (dtm2 ++ cux ++ pts ++ itsr.1 ++ taxr.1 ++ locs ++ pais ++ tods ++
          ftxs ++ [moaRender cfg (lstr "79") taxr.2]) := by
  unfold midSegs at h
  cases hb : checkSeg cfg (bgmRender v.order_number) with
  | error e =>
    simp only [hb, Bind.bind, Except.bind] at h
    exact Except.noConfusion h
  | ok bgm =>
  simp only [hb, Bind.bind, Except.bind] at h
  cases hd1 : checkSeg cfg
      (dtmRender (lstr "137") v.order_date cfg.date_format) with
  | error e =>
    simp only [hd1] at h
    exact Except.noConfusion h
  | ok dtm1 =>
  simp only [hd1] at h
  cases hd2 : optSegs cfg v.delivery_date
      (fun s => dtmRender (lstr "2") s cfg.date_format) with
  | error e =>
    simp only [hd2] at h
    exact Except.noConfusion h
  | ok dtm2 =>
  simp only [hd2] at h
  cases hcx : optSegs cfg v.currency cuxRender with
  | error e =>
    simp only [hcx] at h
    exact Except.noConfusion h
  | ok cux =>
  simp only [hcx] at h
  cases hp : partiesSegs cfg v.parties with
  | error e =>
    simp only [hp] at h
    exact Except.noConfusion h
  | ok pts =>
  simp only [hp] at h
  cases hi : itemsSegs cfg v.items 1 0 with
  | error e =>
    simp only [hi] at h
    exact Except.noConfusion h
  | ok itsr =>
  simp only [hi] at h
  cases ht : taxBlock cfg v.tax_rate itsr.2 with
  | error e =>
    simp only [ht] at h
    exact Except.noConfusion h
  | ok taxr =>
  simp only [ht] at h
  cases hl : optSegs cfg v.delivery_location locRender with
  | error e =>
    simp only [hl] at h
    exact Except.noConfusion h
  | ok locs =>
  simp only [hl] at h
  cases hpa : optSegs cfg v.payment_terms paiRender with
  | error e =>
    simp only [hpa] at h
    exact Except.noConfusion h
  | ok pais =>
  simp only [hpa] at h
  cases hto : optSegs cfg v.incoterms todRender with
  | error e =>
    simp only [hto] at h
    exact Except.noConfusion h
  | ok tods =>
  simp only [hto] at h
  cases hfx : ftxAll cfg v.special_instructions with
  | error e =>
    simp only [hfx] at h
    exact Except.noConfusion h
  | ok ftxs =>
  simp only [hfx] at h
  cases hpc : precCheck cfg taxr.2 with
  | error e =>
    simp only [hpc] at h
    exact Except.noConfusion h
  | ok u =>
  simp only [hpc] at h
  cases hm : checkSeg cfg (moaRender cfg (lstr "79") taxr.2) with
  | error e =>
    simp only [hm] at h
    exact Except.noConfusion h
  | ok moa79 =>
  simp only [hm, Except.ok.injEq] at h
  refine ⟨dtm2, cux, pts, itsr, taxr, locs, pais, tods, ftxs,
    rfl, rfl, rfl, rfl, ht, rfl, rfl, rfl, rfl, ?_⟩
  rw [← h, checkSeg_ok _ _ _ hb, checkSeg_ok _ _ _ hd1,
    checkSeg_ok _ _ _ hm]

theorem quantizeHU_zero (d : ℕ) : quantizeHU d 0 = 0 := by
  have h := quantizeHU_intCast_div d 0 le_rfl
  simpa using h

theorem taxBlock_ok (cfg : EdifactConfig) (rate goods : ℚ)
    (r : List Str × ℚ) (h : taxBlock cfg (some rate) goods = .ok r) :
    r = ([taxRender cfg rate,
      moaRender cfg (lstr "124")
        (quantizeHU cfg.decimals (goods * rate / 100))],
      goods + quantizeHU cfg.decimals (goods * rate / 100)) := by
  unfold taxBlock at h
  simp only [Bind.bind, Except.bind] at h
  cases h1 : precCheck cfg rate with
  | error e => simp only [h1] at h; exact Except.noConfusion h
  | ok u =>
  simp only [h1] at h
  cases h2 : checkSeg cfg (taxRender cfg rate) with
  | error e => simp only [h2] at h; exact Except.noConfusion h
  | ok t =>
  simp only [h2] at h
  cases h3 : precCheck cfg
      (quantizeHU cfg.decimals (goods * rate / 100)) with
  | error e => simp only [h3] at h; exact Except.noConfusion h
  | ok u2 =>
  simp only [h3] at h
  cases h4 : checkSeg cfg (moaRender cfg (lstr "124")
      (quantizeHU cfg.decimals (goods * rate / 100))) with
  | error e => simp only [h4] at h; exact Except.noConfusion h
  | ok m =>
  simp only [h4, Except.ok.injEq] at h
  rw [← h, checkSeg_ok _ _ _ h2, checkSeg_ok _ _ _ h4]

theorem optSegs_blank (cfg : EdifactConfig) (f : Str → Str) :
    optSegs cfg (some []) f = optSegs cfg none f := by
  simp [optSegs, truthy]

theorem ftxAll_blank (cfg : EdifactConfig) :
    ftxAll cfg (some []) = ftxAll cfg none := by
  simp [ftxAll, truthy]

theorem gen_blank_delivery_date (v : OrderData) (cfg : EdifactConfig)
    (now : Str) :
    generate_edifact_orders { v with delivery_date := some [] } cfg now =
      generate_edifact_orders { v with delivery_date := none } cfg now := by
  cases v with
  | mk mr onum od ps its dd cur dl pt tr si inc =>
    unfold generate_edifact_orders generateContent midSegs
    dsimp only
    rw [optSegs_blank]

theorem gen_blank_currency (v : OrderData) (cfg : EdifactConfig)
    (now : Str) :
    generate_edifact_orders { v with currency := some [] } cfg now =
      generate_edifact_orders { v with currency := none } cfg now := by
  cases v with
  | mk mr onum od ps its dd cur dl pt tr si inc =>
    unfold generate_edifact_orders generateContent midSegs
    dsimp only
    rw [optSegs_blank]

theorem gen_blank_delivery_location (v : OrderData) (cfg : EdifactConfig)
    (now : Str) :
    generate_edifact_orders { v with delivery_location := some [] } cfg
      now =
      generate_edifact_orders { v with delivery_location := none } cfg
        now := by
  cases v with
  | mk mr onum od ps its dd cur dl pt tr si inc =>
    unfold generate_edifact_orders generateContent midSegs
    dsimp only
    rw [optSegs_blank]

theorem gen_blank_payment_terms (v : OrderData) (cfg : EdifactConfig)
    (now : Str) :
    generate_edifact_orders { v with payment_terms := some [] } cfg now =
      generate_edifact_orders { v with payment_terms := none } cfg now := by
  cases v with
  | mk mr onum od ps its dd cur dl pt tr si inc =>
    unfold generate_edifact_orders generateContent midSegs
    dsimp only
    rw [optSegs_blank]

theorem gen_blank_incoterms (v : OrderData) (cfg : EdifactConfig)
    (now : Str) :
    generate_edifact_orders { v with incoterms := some [] } cfg now =
      generate_edifact_orders { v with incoterms := none } cfg now := by
  cases v with
  | mk mr onum od ps its dd cur dl pt tr si inc =>
    unfold generate_edifact_orders generateContent midSegs
    dsimp only
    rw [optSegs_blank]

theorem gen_blank_special_instructions (v : OrderData)
    (cfg : EdifactConfig) (now : Str) :
    generate_edifact_orders { v with special_instructions := some [] } cfg
      now =
      generate_edifact_orders { v with special_instructions := none } cfg
        now := by
  cases v with
  | mk mr onum od ps its dd cur dl pt tr si inc =>
    unfold generate_edifact_orders generateContent midSegs
    dsimp only
    rw [ftxAll_blank]

/-- C10: an optional field present but equal to the empty string emits no
segment — generation treats it exactly like an absent field, for each of
delivery_date, currency, delivery_location, payment_terms, incoterms and
special_instructions; by contrast a present tax rate of 0 still emits the
TAX segment and the MOA(124) tax-amount segment (with amount 0). -/
theorem empty_optionals_skipped_zero_tax_emitted :
    (∀ (v : OrderData) (cfg : EdifactConfig) (now : Str),
      generate_edifact_orders { v with delivery_date := some [] } cfg now =
        generate_edifact_orders { v with delivery_date := none } cfg now ∧
      generate_edifact_orders { v with currency := some [] } cfg now =
        generate_edifact_orders { v with currency := none } cfg now ∧
      generate_edifact_orders { v with delivery_location := some [] } cfg
          now =
        generate_edifact_orders { v with delivery_location := none } cfg
          now ∧
      generate_edifact_orders { v with payment_terms := some [] } cfg now =
        generate_edifact_orders { v with payment_terms := none } cfg now ∧
      generate_edifact_orders { v with incoterms := some [] } cfg now =
        generate_edifact_orders { v with incoterms := none } cfg now ∧
      generate_edifact_orders { v with special_instructions := some [] }
          cfg now =
        generate_edifact_orders { v with special_instructions := none }
          cfg now) ∧
    (∀ (v : OrderData) (cfg : EdifactConfig) (now : Str) (flat : List Str),
      v.tax_rate = some 0 →
      generate_edifact_orders v cfg now = .ok flat →
      taxRender cfg 0 ∈ flat ∧ moaRender cfg (lstr "124") 0 ∈ flat) := by
  constructor
  · intro v cfg now
    exact ⟨gen_blank_delivery_date v cfg now, gen_blank_currency v cfg now,
      gen_blank_delivery_location v cfg now,
      gen_blank_payment_terms v cfg now, gen_blank_incoterms v cfg now,
      gen_blank_special_instructions v cfg now⟩
  · intro v cfg now flat htr h
    obtain ⟨content, i, hc, _, _, _, hflat⟩ :=
      generate_ok_structure v cfg now flat h
    obtain ⟨mid, hmid, hcontent⟩ := generateContent_ok v cfg now content hc
    obtain ⟨dtm2, cux, pts, itsr, taxr, locs, pais, tods, ftxs,
      _, _, _, _, ht, _, _, _, _, hmideq⟩ := midSegs_ok v cfg mid hmid
    rw [htr] at ht
    have htx := taxBlock_ok cfg 0 itsr.2 taxr ht
    have hta : quantizeHU cfg.decimals (itsr.2 * 0 / 100) = 0 := by
      rw [mul_zero, zero_div]
      exact quantizeHU_zero cfg.decimals
    rw [hta] at htx
    rw [hflat, hcontent, hmideq, htx]
    constructor <;> simp

/-- The one-item order with a present tax rate of zero. -/
def ordZ : OrderData := { ordA with tax_rate := some 0 }

/-- The flat segment list generated for `ordZ`. -/
def flatZ : List Str :=
  (generate_edifact_orders ordZ defaultConfig nowA).toOption.getD []

unseal Rat.mul Rat.inv Rat.add Rat.sub in
/-- Witness for C10: the empty-string equivalences instantiated on a
concrete order, and the zero-tax emission evaluated on a concrete order
with tax rate 0. -/
theorem empty_optionals_skipped_zero_tax_emitted_witness :
    (generate_edifact_orders { ordA with delivery_date := some [] }
        defaultConfig nowA =
      generate_edifact_orders { ordA with delivery_date := none }
        defaultConfig nowA) ∧
    (taxRender defaultConfig 0 ∈ flatZ ∧
      moaRender defaultConfig (lstr "124") 0 ∈ flatZ) :=
  ⟨(empty_optionals_skipped_zero_tax_emitted.1 ordA defaultConfig nowA).1,
    empty_optionals_skipped_zero_tax_emitted.2 ordZ defaultConfig nowA
      flatZ (by decide) (by decide)⟩

/-- Whether a segment starts with `"FTX+"`. -/
def isFTX (s : Str) : Bool := (lstr "FTX+").isPrefixOf s

theorem isFTX_cons_ne (c : Char) (l : Str) (h : ('F' == c) = false) :
    isFTX (c :: l) = false := by
  have he : lstr "FTX+" = ('F' :: 'T' :: 'X' :: '+' :: []) := rfl
  simp [isFTX, he, List.isPrefixOf, h]

theorem isFTX_unb (cfg : EdifactConfig) (now ref : Str) :
    isFTX (unbRender cfg now ref) = false :=
  isFTX_cons_ne _ _ (by decide)

theorem isFTX_unh (cfg : EdifactConfig) (ref : Str) :
    isFTX (unhRender cfg ref) = false :=
  isFTX_cons_ne _ _ (by decide)

theorem isFTX_bgm (onum : Str) : isFTX (bgmRender onum) = false :=
  isFTX_cons_ne _ _ (by decide)

theorem isFTX_dtm (q d f : Str) : isFTX (dtmRender q d f) = false :=
  isFTX_cons_ne _ _ (by decide)

theorem isFTX_cux (c : Str) : isFTX (cuxRender c) = false :=
  isFTX_cons_ne _ _ (by decide)

theorem isFTX_nad (cfg : EdifactConfig) (q p : Str) (n : Option Str) :
    isFTX (nadRender cfg q p n) = false := by
  unfold nadRender
  split
  · exact isFTX_cons_ne _ _ (by decide)
  · exact isFTX_cons_ne _ _ (by decide)

theorem isFTX_com (c t : Str) : isFTX (comRender c t) = false :=
  isFTX_cons_ne _ _ (by decide)

theorem isFTX_lin (n : ℕ) (p : Str) : isFTX (linRender n p) = false :=
  isFTX_cons_ne _ _ (by decide)

theorem isFTX_imd (cfg : EdifactConfig) (d : Str) :
    isFTX (imdRender cfg d) = false :=
  isFTX_cons_ne _ _ (by decide)

theorem isFTX_qty (q : ℤ) (u : Str) : isFTX (qtyRender q u) = false :=
  isFTX_cons_ne _ _ (by decide)

theorem isFTX_pri (cfg : EdifactConfig) (p : ℚ) (u : Str) :
    isFTX (priRender cfg p u) = false :=
  isFTX_cons_ne _ _ (by decide)

theorem isFTX_moa (cfg : EdifactConfig) (q : Str) (a : ℚ) :
    isFTX (moaRender cfg q a) = false :=
  isFTX_cons_ne _ _ (by decide)

theorem isFTX_tax (cfg : EdifactConfig) (r : ℚ) :
    isFTX (taxRender cfg r) = false :=
  isFTX_cons_ne _ _ (by decide)

theorem isFTX_loc (l : Str) : isFTX (locRender l) = false :=
  isFTX_cons_ne _ _ (by decide)

theorem isFTX_pai (t : Str) : isFTX (paiRender t) = false :=
  isFTX_cons_ne _ _ (by decide)

theorem isFTX_tod (t : Str) : isFTX (todRender t) = false :=
  isFTX_cons_ne _ _ (by decide)

theorem isFTX_unt (n : ℕ) (r : Str) : isFTX (untRender n r) = false :=
  isFTX_cons_ne _ _ (by decide)

theorem isFTX_unz (r : Str) : isFTX (unzRender r) = false :=
  isFTX_cons_ne _ _ (by decide)

theorem isFTX_ftx (cfg : EdifactConfig) (t : Str) (i : ℕ) :
    isFTX (ftxRender cfg t i) = true :=
  isPrefixOf_append_self (lstr "FTX+") _

theorem optSegs_elems (cfg : EdifactConfig) (o : Option Str)
    (f : Str → Str) (l : List Str) (h : optSegs cfg o f = .ok l)
    (hf : ∀ s, isFTX (f s) = false) : ∀ x ∈ l, isFTX x = false := by
  unfold optSegs at h
  split at h
  · simp only [Bind.bind, Except.bind] at h
    cases h1 : checkSeg cfg (f (o.getD [])) with
    | error e => simp only [h1] at h; exact Except.noConfusion h
    | ok c =>
      simp only [h1, Except.ok.injEq] at h
      intro x hx
      rw [← h] at hx
      simp only [List.mem_singleton] at hx
      rw [hx, checkSeg_ok _ _ _ h1]
      exact hf _
  · simp only [Except.ok.injEq] at h
    rw [← h]
    intro x hx
    cases hx

theorem partySegs_elems (cfg : EdifactConfig) (p : OrderParty)
    (l : List Str) (h : partySegs cfg p = .ok l) :
    ∀ x ∈ l, isFTX x = false := by
  unfold partySegs at h
  simp only [Bind.bind, Except.bind] at h
  cases h1 : checkSeg cfg (nadRender cfg p.qualifier p.id p.name) with
  | error e => simp only [h1] at h; exact Except.noConfusion h
  | ok n =>
  simp only [h1] at h
  cases h2 : optSegs cfg p.address (fun s => comRender s (lstr "AD")) with
  | error e => simp only [h2] at h; exact Except.noConfusion h
  | ok a =>
  simp only [h2] at h
  cases h3 : optSegs cfg p.contact (fun s => comRender s (lstr "TE")) with
  | error e => simp only [h3] at h; exact Except.noConfusion h
  | ok c =>
  simp only [h3, Except.ok.injEq] at h
  intro x hx
  rw [← h] at hx
  rcases List.mem_cons.mp hx with hx | hx
  · rw [hx, checkSeg_ok _ _ _ h1]
    exact isFTX_nad cfg p.qualifier p.id p.name
  · rcases List.mem_append.mp hx with hx | hx
    · exact optSegs_elems cfg p.address _ a h2 (fun s => isFTX_com s _) x hx
    · exact optSegs_elems cfg p.contact _ c h3 (fun s => isFTX_com s _) x hx

theorem partiesSegs_elems (cfg : EdifactConfig) :
    ∀ (ps : List OrderParty) (l : List Str),
      partiesSegs cfg ps = .ok l → ∀ x ∈ l, isFTX x = false := by
  intro ps
  induction ps with
  | nil =>
    intro l h
    simp only [partiesSegs, Except.ok.injEq] at h
    rw [← h]
    intro x hx
    cases hx
  | cons p rest ih =>
    intro l h
    unfold partiesSegs at h
    simp only [Bind.bind, Except.bind] at h
    cases h1 : partySegs cfg p with
    | error e => simp only [h1] at h; exact Except.noConfusion h
    | ok a =>
    simp only [h1] at h
    cases h2 : partiesSegs cfg rest with
    | error e => simp only [h2] at h; exact Except.noConfusion h
    | ok b =>
    simp only [h2, Except.ok.injEq] at h
    intro x hx
    rw [← h] at hx
    rcases List.mem_append.mp hx with hx | hx
    · exact partySegs_elems cfg p a h1 x hx
    · exact ih b h2 x hx

theorem itemSegs1_elems (cfg : EdifactConfig) (idx : ℕ) (it : OrderItem)
    (l : List Str) (h : itemSegs1 cfg idx it = .ok l) :
    ∀ x ∈ l, isFTX x = false := by
  unfold itemSegs1 at h
  simp only [Bind.bind, Except.bind] at h
  cases h1 : checkSeg cfg (linRender idx it.product_code) with
  | error e => simp only [h1] at h; exact Except.noConfusion h
  | ok a =>
  simp only [h1] at h
  cases h2 : checkSeg cfg (imdRender cfg it.description) with
  | error e => simp only [h2] at h; exact Except.noConfusion h
  | ok b =>
  simp only [h2] at h
  cases h3 : checkSeg cfg (qtyRender it.quantity (unitOf it)) with
  | error e => simp only [h3] at h; exact Except.noConfusion h
  | ok c =>
  simp only [h3] at h
  cases h4 : precCheck cfg it.price with
  | error e => simp only [h4] at h; exact Except.noConfusion h
  | ok u =>
  simp only [h4] at h
  cases h5 : checkSeg cfg (priRender cfg it.price (unitOf it)) with
  | error e => simp only [h5] at h; exact Except.noConfusion h
  | ok d =>
  simp only [h5, Except.ok.injEq] at h
  intro x hx
  rw [← h] at hx
  simp only [List.mem_cons, List.not_mem_nil, or_false] at hx
  rcases hx with hx | hx | hx | hx
  · rw [hx, checkSeg_ok _ _ _ h1]; exact isFTX_lin _ _
  · rw [hx, checkSeg_ok _ _ _ h2]; exact isFTX_imd _ _
  · rw [hx, checkSeg_ok _ _ _ h3]; exact isFTX_qty _ _
  · rw [hx, checkSeg_ok _ _ _ h5]; exact isFTX_pri _ _ _

theorem itemsSegs_elems (cfg : EdifactConfig) :
    ∀ (items : List OrderItem) (idx : ℕ) (acc : ℚ) (r : List Str × ℚ),
      itemsSegs cfg items idx acc = .ok r → ∀ x ∈ r.1, isFTX x = false := by
  intro items
  induction items with
  | nil =>
    intro idx acc r h
    simp only [itemsSegs, Except.ok.injEq] at h
    rw [← h]
    intro x hx
    cases hx
  | cons it rest ih =>
    intro idx acc r h
    unfold itemsSegs at h
    simp only [Bind.bind, Except.bind] at h
    cases h1 : itemSegs1 cfg idx it with
    | error e => simp only [h1] at h; exact Except.noConfusion h
    | ok s =>
    simp only [h1] at h
    cases h2 : itemsSegs cfg rest (idx + 1) (acc + lineTotal cfg it) with
    | error e => simp only [h2] at h; exact Except.noConfusion h
    | ok r2 =>
    simp only [h2, Except.ok.injEq] at h
    intro x hx
    rw [← h] at hx
    rcases List.mem_append.mp hx with hx | hx
    · exact itemSegs1_elems cfg idx it s h1 x hx
    · exact ih (idx + 1) (acc + lineTotal cfg it) r2 h2 x hx

theorem taxBlock_elems (cfg : EdifactConfig) (rate? : Option ℚ)
    (goods : ℚ) (r : List Str × ℚ) (h : taxBlock cfg rate? goods = .ok r) :
    ∀ x ∈ r.1, isFTX x = false := by
  cases rate? with
  | none =>
    simp only [taxBlock, Except.ok.injEq] at h
    rw [← h]
    intro x hx
    cases hx
  | some rate =>
    have hr := taxBlock_ok cfg rate goods r h
    rw [hr]
    intro x hx
    simp only [List.mem_cons, List.not_mem_nil, or_false] at hx
    rcases hx with hx | hx
    · rw [hx]; exact isFTX_tax _ _
    · rw [hx]; exact isFTX_moa _ _ _

/-- Pure rendering of the FTX segments for a chunk list, sequence numbers
counting up from `i`. -/
def ftxRenderAll (cfg : EdifactConfig) : List Str → ℕ → List Str
  | [], _ => []
  | c :: rest, i => ftxRender cfg c i :: ftxRenderAll cfg rest (i + 1)

theorem ftxChunks_ok (cfg : EdifactConfig) :
    ∀ (chunks : List Str) (i : ℕ) (l : List Str),
      ftxChunks cfg chunks i = .ok l → l = ftxRenderAll cfg chunks i := by
  intro chunks
  induction chunks with
  | nil =>
    intro i l h
    simp only [ftxChunks, Except.ok.injEq] at h
    rw [← h]
    rfl
  | cons c rest ih =>
    intro i l h
    unfold ftxChunks at h
    simp only [Bind.bind, Except.bind] at h
    cases h1 : checkSeg cfg (ftxRender cfg c i) with
    | error e => simp only [h1] at h; exact Except.noConfusion h
    | ok f =>
    simp only [h1] at h
    cases h2 : ftxChunks cfg rest (i + 1) with
    | error e => simp only [h2] at h; exact Except.noConfusion h
    | ok more =>
    simp only [h2, Except.ok.injEq] at h
    rw [← h, checkSeg_ok _ _ _ h1, ih (i + 1) more h2]
    rfl

theorem ftxRenderAll_isFTX (cfg : EdifactConfig) :
    ∀ (chunks : List Str) (i : ℕ),
      ∀ x ∈ ftxRenderAll cfg chunks i, isFTX x = true := by
  intro chunks
  induction chunks with
  | nil => intro i x hx; cases hx
  | cons c rest ih =>
    intro i x hx
    rcases List.mem_cons.mp hx with hx | hx
    · rw [hx]; exact isFTX_ftx _ _ _
    · exact ih (i + 1) x hx

theorem ftxRenderAll_length (cfg : EdifactConfig) :
    ∀ (chunks : List Str) (i : ℕ),
      (ftxRenderAll cfg chunks i).length = chunks.length := by
  intro chunks
  induction chunks with
  | nil => intro i; rfl
  | cons c rest ih => intro i; simp [ftxRenderAll, ih]

theorem chunkListAux_congr (n : ℕ) (hn : n ≠ 0) :
    ∀ (f1 : ℕ) (s : Str) (f2 : ℕ), s.length ≤ f1 → s.length ≤ f2 →
      chunkListAux f1 n s = chunkListAux f2 n s := by
  intro f1
  induction f1 with
  | zero =>
    intro s f2 h1 h2
    have hs : s = [] := List.length_eq_zero.mp (by omega)
    subst hs
    cases f2 <;> simp [chunkListAux]
  | succ f ih =>
    intro s f2 h1 h2
    by_cases hs : s.isEmpty
    · have hsn : s = [] := by simpa [List.isEmpty_iff] using hs
      subst hsn
      cases f2 <;> simp [chunkListAux]
    · have hpos : 0 < s.length := by
        cases s with
        | nil => simp at hs
        | cons a l => simp
      cases f2 with
      | zero => omega
      | succ f2 =>
        unfold chunkListAux
        rw [if_neg (by simp [hn, hs]), if_neg (by simp [hn, hs])]
        congr 1
        apply ih
        · rw [List.length_drop]; omega
        · rw [List.length_drop]; omega

theorem chunkListAux_succ (f n : ℕ) (s : Str) (hn : n ≠ 0)
    (hs : s ≠ []) :
    chunkListAux (f + 1) n s = s.take n :: chunkListAux f n (s.drop n) := by
  conv =>
    lhs
    rw [chunkListAux]
  rw [if_neg (by simp [hn, List.isEmpty_iff, hs])]

theorem chunkList_step (n : ℕ) (s : Str) (hn : n ≠ 0) (hs : s ≠ []) :
    chunkList n s = s.take n :: chunkList n (s.drop n) := by
  unfold chunkList
  cases hl : s.length with
  | zero => exact absurd (List.length_eq_zero.mp hl) hs
  | succ k =>
    rw [chunkListAux_succ k n s hn hs]
    congr 1
    apply chunkListAux_congr n hn
    · rw [List.length_drop]; omega
    · exact le_rfl

theorem chunkList_map_length (n : ℕ) (s : Str) (h5 : 5 ≤ n)
    (hlen : s.length = 3 * n + 5) :
    (chunkList n s).map List.length = [n, n, n, 5] := by
  have hn : n ≠ 0 := by omega
  have hl1 : (s.drop n).length = 2 * n + 5 := by
    rw [List.length_drop]; omega
  have hl2 : ((s.drop n).drop n).length = n + 5 := by
    rw [List.length_drop]; omega
  have hl3 : (((s.drop n).drop n).drop n).length = 5 := by
    simp only [List.length_drop]; omega
  have hl4 : ((((s.drop n).drop n).drop n).drop n) = [] := by
    apply List.eq_nil_of_length_eq_zero
    simp only [List.length_drop]; omega
  rw [chunkList_step n s hn (by
    intro he; rw [he] at hlen; simp at hlen)]
  rw [chunkList_step n _ hn (by
    intro he; rw [he] at hl1; simp at hl1)]
  rw [chunkList_step n _ hn (by
    intro he; rw [he] at hl2; simp at hl2)]
  rw [chunkList_step n _ hn (by
    intro he; rw [he] at hl3; simp at hl3)]
  rw [hl4]
  have hc0 : chunkList n [] = [] := rfl
  rw [hc0]
  simp only [List.map_cons, List.map_nil, List.length_take]
  rw [hlen, hl1, hl2, hl3]
  have e1 : n ⊓ (3 * n + 5) = n := min_eq_left (by omega)
  have e2 : n ⊓ (2 * n + 5) = n := min_eq_left (by omega)
  have e3 : n ⊓ (n + 5) = n := min_eq_left (by omega)
  have e4 : n ⊓ 5 = 5 := min_eq_right (by omega)
  rw [e1, e2, e3, e4]

/-- C7 (amended: additionally requires `max_field_length ≥ 5`): for a
successful generation whose special_instructions has length
`3 * max_field_length + 5`, when the configured UNA literal does not
start with `"FTX+"`, the FTX segments of the output are exactly the
renderings of the consecutive fixed-size chunks with sequence numbers
incrementing from 1; there are exactly 4 of them and the chunk lengths
are max_field_length, max_field_length, max_field_length and 5. -/
theorem ftx_chunking (v : OrderData) (cfg : EdifactConfig) (now : Str)
    (flat : List Str) (s : Str)
    (h : generate_edifact_orders v cfg now = .ok flat)
    (hsi : v.special_instructions = some s)
    (hlen : s.length = 3 * cfg.max_field_length + 5)
    (h5 : 5 ≤ cfg.max_field_length)
    (hu : isFTX cfg.una_segment = false) :
    flat.filter isFTX =
      ftxRenderAll cfg (chunkList cfg.max_field_length s) 1 ∧
    (chunkList cfg.max_field_length s).map List.length =
      [cfg.max_field_length, cfg.max_field_length,
        cfg.max_field_length, 5] ∧
    (flat.filter isFTX).length = 4 := by
  obtain ⟨content, i, hc, _, _, _, hflat⟩ :=
    generate_ok_structure v cfg now flat h
  obtain ⟨mid, hmid, hcontent⟩ := generateContent_ok v cfg now content hc
  obtain ⟨dtm2, cux, pts, itsr, taxr, locs, pais, tods, ftxs,
    hd2, hcx, hp, hi, ht, hl, hpa, hto, hfx, hmideq⟩ :=
    midSegs_ok v cfg mid hmid
  rw [hsi] at hfx
  unfold ftxAll at hfx
  have htr : truthy (some s) = true := by
    have hne : s ≠ [] := by
      intro he
      rw [he] at hlen
      simp at hlen
    simp [truthy, List.isEmpty_iff, hne]
  rw [if_pos htr] at hfx
  simp only [Option.getD_some] at hfx
  have hftxs : ftxs = ftxRenderAll cfg (chunkList cfg.max_field_length s) 1 :=
    ftxChunks_ok cfg _ 1 ftxs hfx
  have hmap := chunkList_map_length cfg.max_field_length s h5 hlen
  have f_una : (if cfg.include_una then [cfg.una_segment] else []).filter
      isFTX = [] := by
    cases hb : cfg.include_una <;> simp [hu]
  have f_d2 : dtm2.filter isFTX = [] :=
    List.filter_eq_nil_iff.mpr (fun a ha => by
      simp [optSegs_elems cfg v.delivery_date _ dtm2 hd2
        (fun x => isFTX_dtm _ _ _) a ha])
  have f_cx : cux.filter isFTX = [] :=
    List.filter_eq_nil_iff.mpr (fun a ha => by
      simp [optSegs_elems cfg v.currency _ cux hcx
        (fun x => isFTX_cux _) a ha])
  have f_pts : pts.filter isFTX = [] :=
    List.filter_eq_nil_iff.mpr (fun a ha => by
      simp [partiesSegs_elems cfg v.parties pts hp a ha])
  have f_its : itsr.1.filter isFTX = [] :=
    List.filter_eq_nil_iff.mpr (fun a ha => by
      simp [itemsSegs_elems cfg v.items 1 0 itsr hi a ha])
  have f_tax : taxr.1.filter isFTX = [] :=
    List.filter_eq_nil_iff.mpr (fun a ha => by
      simp [taxBlock_elems cfg v.tax_rate itsr.2 taxr ht a ha])
  have f_locs : locs.filter isFTX = [] :=
    List.filter_eq_nil_iff.mpr (fun a ha => by
      simp [optSegs_elems cfg v.delivery_location _ locs hl
        (fun x => isFTX_loc _) a ha])
  have f_pais : pais.filter isFTX = [] :=
    List.filter_eq_nil_iff.mpr (fun a ha => by
      simp [optSegs_elems cfg v.payment_terms _ pais hpa
        (fun x => isFTX_pai _) a ha])
  have f_tods : tods.filter isFTX = [] :=
    List.filter_eq_nil_iff.mpr (fun a ha => by
      simp [optSegs_elems cfg v.incoterms _ tods hto
        (fun x => isFTX_tod _) a ha])
  have f_ftxs : ftxs.filter isFTX = ftxs :=
    List.filter_eq_self.mpr (fun a ha => by
      rw [hftxs] at ha
      exact ftxRenderAll_isFTX cfg _ 1 a ha)
  have hfilter : flat.filter isFTX = ftxs := by
    rw [hflat, hcontent, hmideq]
    simp only [List.filter_append, List.filter_cons, isFTX_unb, isFTX_unh,
      isFTX_bgm, isFTX_dtm, isFTX_moa, isFTX_unt, isFTX_unz, f_una, f_d2,
      f_cx, f_pts, f_its, f_tax, f_locs, f_pais, f_tods, f_ftxs,
      Bool.false_eq_true, if_false, List.filter_nil, List.nil_append,
      List.append_nil]
  have hcl : (chunkList cfg.max_field_length s).length = 4 := by
    have hml := congrArg List.length hmap
    simpa using hml
  refine ⟨by rw [hfilter, hftxs], hmap, ?_⟩
  rw [hfilter, hftxs, ftxRenderAll_length, hcl]

/-- Configuration with `max_field_length` lowered to 5. -/
def cfgW : EdifactConfig := { defaultConfig with max_field_length := 5 }

/-- Order with special instructions of length `3 * 5 + 5 = 20`. -/
def ordF : OrderData :=
  { ordA with special_instructions := some (List.replicate 20 'a') }

/-- The flat segment list generated for `ordF` under `cfgW`. -/
def flatF : List Str :=
  (generate_edifact_orders ordF cfgW nowA).toOption.getD []

unseal Rat.mul Rat.inv Rat.add Rat.sub in
/-- Witness for C7: the chunking result evaluated at max_field_length 5
with special instructions of length 20. -/
theorem ftx_chunking_witness :
    flatF.filter isFTX =
      ftxRenderAll cfgW (chunkList cfgW.max_field_length
        (List.replicate 20 'a')) 1 ∧
    (chunkList cfgW.max_field_length (List.replicate 20 'a')).map
        List.length =
      [cfgW.max_field_length, cfgW.max_field_length,
        cfgW.max_field_length, 5] ∧
    (flatF.filter isFTX).length = 4 :=
  ftx_chunking ordF cfgW nowA flatF (List.replicate 20 'a') (by decide)
    (by decide) (by decide) (by decide) (by decide)

/-- Configuration with `max_field_length` lowered to 4. -/
def cfg4 : EdifactConfig := { defaultConfig with max_field_length := 4 }

/-- Order with special instructions of length `3 * 4 + 5 = 17`. -/
def ordF4 : OrderData :=
  { ordA with special_instructions := some (List.replicate 17 'b') }

/-- The flat segment list generated for `ordF4` under `cfg4`. -/
def flatF4 : List Str :=
  (generate_edifact_orders ordF4 cfg4 nowA).toOption.getD []

unseal Rat.mul Rat.inv Rat.add Rat.sub in
/-- Counterexample to C7 as stated: with `max_field_length = 4` and
special instructions of length `3 * 4 + 5 = 17`, generation succeeds but
emits 5 FTX segments, not 4 (the remainder 5 exceeds the chunk size and
splits further). -/
theorem ftx_chunking_counterexample :
    (List.replicate 17 'b').length = 3 * cfg4.max_field_length + 5 ∧
    generate_edifact_orders ordF4 cfg4 nowA = .ok flatF4 ∧
    (flatF4.filter isFTX).length = 5 ∧
    ¬((flatF4.filter isFTX).length = 4) := by
  refine ⟨by decide, by decide, by decide, by decide⟩

/-- Python values reaching the validator: strings, ints, Decimals
(exact rationals), None, lists and dicts (association lists with unique
keys, first match wins on lookup).  Floats appear in no input considered
here. -/
inductive PyVal where
  | pstr (s : Str)
  | pint (n : ℤ)
  | pdec (q : ℚ)
  | pnone
  | plist (xs : List PyVal)
  | pdict (m : List (Str × PyVal))

/-- Python dict lookup on the association-list model. -/
def lookupKey (k : Str) : List (Str × PyVal) → Option PyVal
  | [] => none
  | (k2, v) :: rest => if k2 = k then some v else lookupKey k rest

/-- Python dict assignment `d[k] = v` (replace if present, else insert). -/
def setKey (k : Str) (v : PyVal) : List (Str × PyVal) →
    List (Str × PyVal)
  | [] => [(k, v)]
  | (k2, w) :: rest =>
    if k2 = k then (k, v) :: rest else (k2, w) :: setKey k v rest

mutual
/-- Value transformation of sanitize_input: strings are stripped of
control characters, dicts are recursed into, list elements are recursed
into only when they are dicts, everything else passes through. -/
def sanitizeVal : PyVal → PyVal
  | .pstr s => .pstr (stripCtrl s)
  | .pdict m => .pdict (sanitizeFields m)
  | .plist xs => .plist (sanitizeListElems xs)
  | v => v

/-- List handling of sanitize_input (only dict elements are recursed). -/
def sanitizeListElems : List PyVal → List PyVal
  | [] => []
  | .pdict m :: xs => .pdict (sanitizeFields m) :: sanitizeListElems xs
  | x :: xs => x :: sanitizeListElems xs

/-- sanitize_input over a dict: keys are kept, values are sanitized. -/
def sanitizeFields : List (Str × PyVal) → List (Str × PyVal)
  | [] => []
  | (k, v) :: rest => (k, sanitizeVal v) :: sanitizeFields rest
end

/-- Python exception classes arising in the validator's conversions. -/
inductive PyExc where
  | valueError
  | typeError
  | keyError
  | attributeError
  | invalidOperation
  deriving DecidableEq

/-- Structured EdifactGenerationError codes raised by validate_order_data
and validate_with_schema. -/
inductive VCode where
  | SCHEMA_001
  | VALID_001
  | VALID_002
  | VALID_003
  | VALID_004
  | VALID_005
  | VALID_006
  | VALID_007
  | VALID_008
  deriving DecidableEq

/-- Outcome of a failed validate_order_data call: a structured error, or
a Python exception that escapes the function uncaught. -/
inductive VErr where
  | code (c : VCode)
  | uncaught (e : PyExc)
  deriving DecidableEq

/-- The error of a result, if any. -/
def vErrOf {α : Type} : Except VErr α → Option VErr
  | .error e => some e
  | .ok _ => none

/-- Numeric value of a digit string. -/
def digitsVal (s : Str) : ℕ :=
  s.foldl (fun acc c => acc * 10 + (c.toNat - 48)) 0

/-- Python int(string): optional sign followed by digits (a simple core
of the int literal grammar; whitespace and underscores unused here). -/
def parseIntStr : Str → Option ℤ
  | [] => none
  | '-' :: rest =>
    if rest ≠ [] ∧ rest.all Char.isDigit then some (-(digitsVal rest : ℤ))
    else none
  | '+' :: rest =>
    if rest ≠ [] ∧ rest.all Char.isDigit then some (digitsVal rest) else none
  | s =>
    if s.all Char.isDigit then some (digitsVal s) else none

/-- Python int(x): ints pass, strings parse as integer literals
(ValueError otherwise), Decimals truncate toward zero, None and
containers raise TypeError. -/
def pyInt : PyVal → Except PyExc ℤ
  | .pint n => .ok n
  | .pstr s =>
    match parseIntStr s with
    | some n => .ok n
    | none => .error .valueError
  | .pdec q => .ok (Int.tdiv q.num q.den)
  | .pnone => .error .typeError
  | .plist _ => .error .typeError
  | .pdict _ => .error .typeError

/-- Largest power of `p` dividing `n` (fuel-bounded). -/
def powCountAux (p : ℕ) : ℕ → ℕ → ℕ
  | 0, _ => 0
  | fuel + 1, n =>
    if 2 ≤ p ∧ n ≠ 0 ∧ n % p = 0 then 1 + powCountAux p fuel (n / p) else 0

/-- Largest power of `p` dividing `n`. -/
def powCount (p n : ℕ) : ℕ := powCountAux p n n

/-- Python str() of a Decimal modelled as ℚ: rendered with the minimal
number of fractional digits (the exponent of a Decimal is not tracked by
ℚ, so trailing zeros of the stored exponent are not reproduced; no input
considered here carries one). -/
def decStr (q : ℚ) : Str :=
  renderDec (max (powCount 2 q.den) (powCount 5 q.den)) q

/-- Python str() of a model value.  Containers render as a bracketed
placeholder: only the failure of their Decimal re-parse matters
downstream, which the placeholder preserves. -/
def pyStr : PyVal → Str
  | .pstr s => s
  | .pint n => intStr n
  | .pdec q => decStr q
  | .pnone => lstr "None"
  | .plist _ => lstr "[...]"
  | .pdict _ => lstr "\x7b...\x7d"

/-- Unsigned decimal-literal parse: `digits [. digits]` or `. digits`. -/
def parseUnsignedDec (t : Str) : Option ℚ :=
  let ip := t.takeWhile Char.isDigit
  let rest := t.drop ip.length
  match rest with
  | [] => if ip ≠ [] then some (digitsVal ip) else none
  | '.' :: fp =>
    if fp.all Char.isDigit ∧ (ip ≠ [] ∨ fp ≠ []) then
      some ((digitsVal ip : ℚ) + (digitsVal fp : ℚ) / 10 ^ fp.length)
    else none
  | _ => none

/-- Python Decimal(string) on the plain numeric forms (optional sign,
digits, optional fraction).  Exponent forms and the special values
Infinity/NaN are outside the inputs considered; any other string raises
InvalidOperation (decimal's conversion-syntax error), which is NOT a
ValueError. -/
def parseDecStr : Str → Except PyExc ℚ
  | '-' :: t =>
    match parseUnsignedDec t with
    | some q => .ok (-q)
    | none => .error .invalidOperation
  | '+' :: t =>
    match parseUnsignedDec t with
    | some q => .ok q
    | none => .error .invalidOperation
  | s =>
    match parseUnsignedDec s with
    | some q => .ok q
    | none => .error .invalidOperation

/-- Python len(): strings, lists and dicts are sized; other values raise
TypeError. -/
def pyLen : PyVal → Except PyExc ℕ
  | .pstr s => .ok s.length
  | .plist xs => .ok xs.length
  | .pdict m => .ok m.length
  | _ => .error .typeError

/-- Python truthiness of a model value. -/
def pyTruthy : PyVal → Bool
  | .pstr s => !s.isEmpty
  | .pint n => n != 0
  | .pdec q => q != 0
  | .pnone => false
  | .plist xs => !xs.isEmpty
  | .pdict m => !m.isEmpty

/-- Leap-year rule of the proleptic Gregorian calendar. -/
def isLeap (y : ℕ) : Bool :=
  (y % 4 == 0 && y % 100 != 0) || y % 400 == 0

/-- Days in a month. -/
def daysInMonth (y m : ℕ) : ℕ :=
  if m = 2 then (if isLeap y then 29 else 28)
  else if m = 4 ∨ m = 6 ∨ m = 9 ∨ m = 11 then 30
  else 31

/-- Calendar validity of a year-month-day triple. -/
def dateOkYmd (y m d : ℕ) : Bool :=
  1 ≤ m && m ≤ 12 && 1 ≤ d && d ≤ daysInMonth y m

/-- Two-digit year rule of strptime `%y`: 0-68 maps to 2000-2068,
69-99 to 1969-1999. -/
def yearOf2 (yy : ℕ) : ℕ := if yy ≤ 68 then 2000 + yy else 1900 + yy

/-- validate_date of the source: looks the format code up in
DATE_FORMATS and checks the string against the pattern via strptime
(modelled as digit-count plus calendar and clock range checks; strptime
accepts seconds up to 61).  An unknown code returns False. -/
def validate_date (s : Str) (code : Str) : Bool :=
  if code = lstr "102" then
    s.length == 8 && s.all Char.isDigit &&
      dateOkYmd (digitsVal (s.take 4)) (digitsVal ((s.drop 4).take 2))
        (digitsVal (s.drop 6))
  else if code = lstr "203" then
    s.length == 12 && s.all Char.isDigit &&
      dateOkYmd (digitsVal (s.take 4)) (digitsVal ((s.drop 4).take 2))
        (digitsVal ((s.drop 6).take 2)) &&
      digitsVal ((s.drop 8).take 2) ≤ 23 &&
      digitsVal ((s.drop 10).take 2) ≤ 59
  else if code = lstr "101" then
    s.length == 6 && s.all Char.isDigit &&
      dateOkYmd (yearOf2 (digitsVal (s.take 2)))
        (digitsVal ((s.drop 2).take 2)) (digitsVal (s.drop 4))
  else if code = lstr "204" then
    s.length == 14 && s.all Char.isDigit &&
      dateOkYmd (digitsVal (s.take 4)) (digitsVal ((s.drop 4).take 2))
        (digitsVal ((s.drop 6).take 2)) &&
      digitsVal ((s.drop 8).take 2) ≤ 23 &&
      digitsVal ((s.drop 10).take 2) ≤ 59 &&
      digitsVal ((s.drop 12).take 2) ≤ 61
  else false

/-- validate_date applied to a dict value (a non-string raises TypeError
inside strptime, which validate_date catches, returning False). -/
def pyDateOk (v : PyVal) (code : Str) : Bool :=
  match v with
  | .pstr s => validate_date s code
  | _ => false

/-- The required top-level fields of ORDER_SCHEMA and of the VALID_001
presence check. -/
def requiredKeys : List Str :=
  [lstr "message_ref", lstr "order_number", lstr "order_date",
    lstr "parties", lstr "items"]

/-- One string-typed schema property: absent is fine; present must be a
string within the optional maxLength. -/
def strPropOk (m : List (Str × PyVal)) (k : Str) (maxLen : Option ℕ) :
    Bool :=
  match lookupKey k m with
  | none => true
  | some (.pstr s) =>
    match maxLen with
    | none => true
    | some L => s.length ≤ L
  | some _ => false

/-- One number-typed schema property (Decimal registers as a Number). -/
def numPropOk (m : List (Str × PyVal)) (k : Str) : Bool :=
  match lookupKey k m with
  | none => true
  | some (.pint _) => true
  | some (.pdec _) => true
  | some _ => false

/-- Modelled from the external jsonschema validator applied to
ORDER_SCHEMA: the required keys must be present and every declared
property present must match its type and maxLength.  Any failure is
surfaced as SCHEMA_001 by validate_with_schema. -/
def schemaOk (m : List (Str × PyVal)) : Bool :=
  requiredKeys.all (fun k => (lookupKey k m).isSome) &&
  strPropOk m (lstr "message_ref") (some 14) &&
  strPropOk m (lstr "order_number") (some 35) &&
  strPropOk m (lstr "order_date") none &&
  strPropOk m (lstr "delivery_date") none &&
  strPropOk m (lstr "currency") (some 3) &&
  strPropOk m (lstr "delivery_location") (some 35) &&
  strPropOk m (lstr "payment_terms") (some 35) &&
  numPropOk m (lstr "tax_rate") &&
  strPropOk m (lstr "special_instructions") none &&
  strPropOk m (lstr "incoterms") (some 3)

/-- A failure inside the conversion try-block: a Python exception, or a
structured error raised there (VALID_007). -/
inductive TryErr where
  | pyexc (e : PyExc)
  | edifact (c : VCode)

/-- Python `item[k]` (KeyError when absent). -/
def getKey (m : List (Str × PyVal)) (k : Str) : Except TryErr PyVal :=
  match lookupKey k m with
  | some v => .ok v
  | none => .error (.pyexc .keyError)

/-- Conversion of one item inside the try-block, in source order:
product-code length gate (VALID_007), then product_code (KeyError when
absent), description (default empty), int(quantity),
Decimal(str(price)), unit (default "EA").  A non-dict item raises
AttributeError at `.get`. -/
def convItem (it : PyVal) : Except TryErr PyVal :=
  match it with
  | .pdict m => do
    let pcLen ← (match pyLen
        ((lookupKey (lstr "product_code") m).getD (.pstr [])) with
      | .ok n => Except.ok n
      | .error e => Except.error (.pyexc e))
    if 35 < pcLen then .error (.edifact .VALID_007)
    else do
      let pc ← getKey m (lstr "product_code")
      let qv ← getKey m (lstr "quantity")
      let q ← (match pyInt qv with
        | .ok n => Except.ok n
        | .error e => Except.error (.pyexc e))
      let prv ← getKey m (lstr "price")
      let pr ← (match parseDecStr (pyStr prv) with
        | .ok q => Except.ok q
        | .error e => Except.error (.pyexc e))
      .ok (.pdict [
        (lstr "product_code", .pstr (pyStr pc)),
        (lstr "description", .pstr (pyStr
          ((lookupKey (lstr "description") m).getD (.pstr [])))),
        (lstr "quantity", .pint q),
        (lstr "price", .pdec pr),
        (lstr "unit", .pstr (pyStr
          ((lookupKey (lstr "unit") m).getD (.pstr (lstr "EA")))))])
  | _ => .error (.pyexc .attributeError)

/-- The item conversion loop. -/
def convItems : List PyVal → Except TryErr (List PyVal)
  | [] => .ok []
  | it :: rest => do
    let c ← convItem it
    let more ← convItems rest
    .ok (c :: more)

/-- The tax_rate conversion of the try-block: converted when present and
not None. -/
def convTax (m : List (Str × PyVal)) : Except TryErr (Option ℚ) :=
  match lookupKey (lstr "tax_rate") m with
  | none => .ok none
  | some .pnone => .ok none
  | some v =>
    match parseDecStr (pyStr v) with
    | .ok q => .ok (some q)
    | .error e => .error (.pyexc e)

/-- The whole try-block body. -/
def convAll (its : List PyVal) (dc : List (Str × PyVal)) :
    Except TryErr (List PyVal × Option ℚ) := do
  let cis ← convItems its
  let tr ← convTax dc
  .ok (cis, tr)

/-- The per-party checks: qualifier and id must be present (VALID_006),
the qualifier must be in the allowed list (VALID_008).  Iterating a
non-dict party raises a TypeError at the membership test (string-valued
parties, for which Python `in` means substring search, reach no input
considered here). -/
def partiesAll (cfg : EdifactConfig) : List PyVal → Except VErr Unit
  | [] => .ok ()
  | p :: rest =>
    match p with
    | .pdict m =>
      match lookupKey (lstr "qualifier") m, lookupKey (lstr "id") m with
      | some qv, some _ =>
        (match qv with
        | .pstr qs =>
          if cfg.allowed_qualifiers.contains qs then partiesAll cfg rest
          else .error (.code .VALID_008)
        | _ => .error (.code .VALID_008))
      | _, _ => .error (.code .VALID_006)
    | _ => .error (.uncaught .typeError)

/-- validate_order_data: deep-copy and sanitize, schema check
(SCHEMA_001), presence check (VALID_001), non-empty items list
(VALID_002), order and delivery date checks (VALID_003/VALID_004), the
conversion try-block whose except clause catches exactly ValueError,
TypeError and KeyError as VALID_005 (anything else escapes uncaught),
then the party checks; the result is the converted copy. -/
def validate_order_data (data : List (Str × PyVal)) (cfg : EdifactConfig) :
    Except VErr (List (Str × PyVal)) :=
  let dc := sanitizeFields data
  if ¬ schemaOk dc then .error (.code .SCHEMA_001)
  else
    if ¬ (requiredKeys.filter
        (fun k => (lookupKey k dc).isNone)).isEmpty then
      .error (.code .VALID_001)
    else
      match lookupKey (lstr "items") dc with
      | some (.plist its) =>
        if its.isEmpty then .error (.code .VALID_002)
        else
          match lookupKey (lstr "order_date") dc with
          | none => .error (.uncaught .keyError)
          | some od =>
            if ¬ pyDateOk od cfg.date_format then .error (.code .VALID_003)
            else
              if (match lookupKey (lstr "delivery_date") dc with
                  | some dd => pyTruthy dd && !(pyDateOk dd cfg.date_format)
                  | none => false) then
                .error (.code .VALID_004)
              else
                match convAll its dc with
                | .error (.pyexc e) =>
                  if e = .valueError ∨ e = .typeError ∨ e = .keyError then
                    .error (.code .VALID_005)
                  else .error (.uncaught e)
                | .error (.edifact c) => .error (.code c)
                | .ok (cis, tr) =>
                  match lookupKey (lstr "parties") dc with
                  | some (.plist ps) =>
                    match partiesAll cfg ps with
                    | .error e => .error e
                    | .ok _ =>
                      let dc2 := setKey (lstr "items") (.plist cis) dc
                      .ok (match tr with
                        | some q => setKey (lstr "tax_rate") (.pdec q) dc2
                        | none => dc2)
                  | some _ => .error (.uncaught .typeError)
                  | none => .ok (setKey (lstr "items") (.plist cis) dc)
      | _ => .error (.code .VALID_002)

theorem lookupKey_sanitizeFields (k : Str) :
    ∀ m, lookupKey k (sanitizeFields m) =
      (lookupKey k m).map sanitizeVal := by
  intro m
  induction m with
  | nil => rfl
  | cons kv rest ih =>
    obtain ⟨k2, v⟩ := kv
    unfold sanitizeFields lookupKey
    by_cases h : k2 = k
    · simp [h]
    · simp [h, ih]

/-- C2 (amended): an order record lacking `items` fails, but with code
SCHEMA_001, not VALID_001 — the schema validator's required-field check
runs before the VALID_001 presence check, so the VALID_001 branch can
never report a missing top-level required field. -/
theorem missing_items_fails_schema001 (data : List (Str × PyVal))
    (cfg : EdifactConfig)
    (h : (lookupKey (lstr "items") data).isNone = true) :
    validate_order_data data cfg = .error (.code .SCHEMA_001) := by
  have hlk : lookupKey (lstr "items") (sanitizeFields data) = none := by
    rw [lookupKey_sanitizeFields]
    cases hq : lookupKey (lstr "items") data with
    | none => rfl
    | some v => rw [hq] at h; simp at h
  have h5 : (lookupKey (lstr "items") (sanitizeFields data)).isSome =
      false := by rw [hlk]; rfl
  have hs : schemaOk (sanitizeFields data) = false := by
    unfold schemaOk requiredKeys
    simp [List.all_cons, List.all_nil, h5]
  unfold validate_order_data
  simp [hs]

/-- An order record with every required field except `items`. -/
def noItemsOrder : List (Str × PyVal) := [
  (lstr "message_ref", .pstr (lstr "R1")),
  (lstr "order_number", .pstr (lstr "PO-1")),
  (lstr "order_date", .pstr (lstr "20250101")),
  (lstr "parties", .plist [.pdict [
    (lstr "qualifier", .pstr (lstr "BY")),
    (lstr "id", .pstr (lstr "123"))]])]

/-- Counterexample to C2 as stated: the record missing `items` is
rejected with SCHEMA_001, which differs from VALID_001. -/
theorem missing_items_counterexample :
    vErrOf (validate_order_data noItemsOrder defaultConfig) =
      some (.code .SCHEMA_001) ∧
    VErr.code VCode.SCHEMA_001 ≠ VErr.code VCode.VALID_001 := by
  refine ⟨by decide, by decide⟩

/-- Witness for C2 (amended): the general theorem applied to the
concrete record missing `items`. -/
theorem missing_items_fails_schema001_witness :
    (lookupKey (lstr "items") noItemsOrder).isNone = true ∧
    validate_order_data noItemsOrder defaultConfig =
      .error (.code .SCHEMA_001) :=
  ⟨by decide,
    missing_items_fails_schema001 noItemsOrder defaultConfig (by decide)⟩

/-- A well-formed order whose item price is the non-numeric string
`"abc"`. -/
def badPriceOrder : List (Str × PyVal) := [
  (lstr "message_ref", .pstr (lstr "R1")),
  (lstr "order_number", .pstr (lstr "PO-1")),
  (lstr "order_date", .pstr (lstr "20250101")),
  (lstr "parties", .plist [.pdict [
    (lstr "qualifier", .pstr (lstr "BY")),
    (lstr "id", .pstr (lstr "123"))]]),
  (lstr "items", .plist [.pdict [
    (lstr "product_code", .pstr (lstr "P1")),
    (lstr "quantity", .pint 1),
    (lstr "price", .pstr (lstr "abc"))]])]

/-- The same order but with a non-numeric quantity and a valid price. -/
def badQtyOrder : List (Str × PyVal) := [
  (lstr "message_ref", .pstr (lstr "R1")),
  (lstr "order_number", .pstr (lstr "PO-1")),
  (lstr "order_date", .pstr (lstr "20250101")),
  (lstr "parties", .plist [.pdict [
    (lstr "qualifier", .pstr (lstr "BY")),
    (lstr "id", .pstr (lstr "123"))]]),
  (lstr "items", .plist [.pdict [
    (lstr "product_code", .pstr (lstr "P1")),
    (lstr "quantity", .pstr (lstr "abc")),
    (lstr "price", .pstr (lstr "1.50"))]])]

/-- C3 evaluated on the failing input: a price that is not convertible
raises decimal.InvalidOperation, which the except clause
`(ValueError, TypeError, KeyError)` does not catch, so it ESCAPES the
validator instead of becoming VALID_005; a non-convertible quantity, by
contrast, raises ValueError, which is caught and reported as VALID_005.
This contradicts the claim that every conversion failure yields
VALID_005 with no other exception escaping. -/
theorem price_invalidoperation_escapes :
    vErrOf (validate_order_data badPriceOrder defaultConfig) =
      some (.uncaught .invalidOperation) ∧
    vErrOf (validate_order_data badQtyOrder defaultConfig) =
      some (.code .VALID_005) := by
  refine ⟨by decide, by decide⟩
